import Mathlib

/-!
Verification of the Evergreen task-graph state machine core: a shallow
embedding of the task lifecycle code (`src/model/project_ref_test.go`,
which holds the task lifecycle functions of the `model` package) and of
the commit queue (`src/model/commitqueue/commit_queue.go`), together
with theorems settling the specification claims about them.

Conventions of the embedding:
- Go string-enum statuses become inductive types.
- The shared document store becomes an explicit `World` record of task,
  build, version and patch documents; every operation is a function
  `World → Except String (World × List Ev)` where the event list records
  the externally observable actions (marks, resets, activations, status
  writes, document reads) that the claims talk about.
- Recursive graph traversals take an explicit fuel argument; in the Go
  code the same recursions terminate because the dependency graph is
  acyclic (guaranteed upstream, spec section 6).
- Helper functions of the `task`/`build`/`evergreen` packages whose
  source is not part of the inspected corpus are modelled from the spec;
  each such definition carries a doc comment saying so.
-/

namespace Evergreen

/-- Task lifecycle states, from spec section 4.1: `undispatched →
dispatched → started → {succeeded, failed, systemFailed}`. -/
inductive TaskStatus
  | undispatched
  | dispatched
  | started
  | succeeded
  | failed
  | systemFailed
deriving DecidableEq, Repr, Fintype

/-- A dependency's required status: a concrete status, or the wildcard
`AllStatuses` (`"*"` in the Go code). -/
inductive DepStatus
  | status (s : TaskStatus)
  | allStatuses
deriving DecidableEq, Repr, Fintype

/-- Build statuses (created/started/failed/succeeded). -/
inductive BuildStatus
  | created
  | started
  | failed
  | succeeded
deriving DecidableEq, Repr, Fintype

/-- Version statuses, mirroring build statuses (spec section 4.2). -/
inductive VersionStatus
  | created
  | started
  | failed
  | succeeded
deriving DecidableEq, Repr, Fintype

/-- Patch statuses, a fixed one-to-one mapping from version statuses. -/
inductive PatchStatus
  | created
  | started
  | failed
  | succeeded
deriving DecidableEq, Repr, Fintype

/-- A dependency edge as stored on the depending task: target task id,
required status, runtime-mutable `unattainable` mark, and the cached
`finished` mark set by `MarkDependenciesFinished`. -/
structure Dependency where
  TaskId : String
  Status : DepStatus
  Unattainable : Bool := false
  Finished : Bool := false
deriving DecidableEq, Repr

/-- End-of-run details reported by the worker (`apimodels.TaskEndDetail`):
final status, command type and description. -/
structure TaskEndDetail where
  Status : TaskStatus
  DetType : String := ""
  Description : String := ""
deriving DecidableEq, Repr

/-- A task document, with the fields the lifecycle code reads/writes. -/
structure Task where
  Id : String
  Status : TaskStatus := .undispatched
  Activated : Bool := false
  ActivatedBy : String := ""
  Aborted : Bool := false
  Priority : Int := 0
  Execution : Nat := 0
  RevisionOrderNumber : Nat := 0
  BuildVariant : String := ""
  DisplayName : String := ""
  Project : String := ""
  Requester : String := ""
  BuildId : String := ""
  Version : String := ""
  DependsOn : List Dependency := []
  OverrideDependencies : Bool := false
  ResetWhenFinished : Bool := false
  TaskGroup : String := ""
  TaskGroupMaxHosts : Nat := 0
  TaskGroupOrder : Nat := 0
  DisplayOnly : Bool := false
  ExecutionTasks : List String := []
  DisplayTaskId : String := ""
  GeneratedBy : String := ""
  GenerateTask : Bool := false
  MustHaveResults : Bool := false
  HasCedarResults : Bool := false
  CommitQueueMerge : Bool := false
  IsGithubCheck : Bool := false
  ExecutionPlatform : String := ""
  DispatchTime : Nat := 0
  StartTime : Nat := 0
  FinishTime : Nat := 0
  Details : Option TaskEndDetail := none
deriving DecidableEq, Repr

/-- A build document. -/
structure Build where
  Id : String
  Status : BuildStatus := .created
  Activated : Bool := false
  Aborted : Bool := false
  AllTasksBlocked : Bool := false
  Version : String := ""
  IsGithubCheck : Bool := false
  GithubCheckStatus : BuildStatus := .created
deriving DecidableEq, Repr

/-- A version document. -/
structure Version where
  Id : String
  Status : VersionStatus := .created
  Aborted : Bool := false
  Activated : Bool := false
  Requester : String := ""
deriving DecidableEq, Repr

/-- A patch document (present only for patch-family requesters). -/
structure Patch where
  Id : String
  Status : PatchStatus := .created
deriving DecidableEq, Repr

/-- A queued merge request: issue identifier, optional patch id, the id
of the version running the merge test (empty means "unprocessed"), and
the enqueue timestamp. -/
structure CommitQueueItem where
  Issue : String
  PatchId : String := ""
  Version : String := ""
  EnqueueTime : Nat := 0
deriving DecidableEq, Repr

/-- A project's commit queue: the ordered sequence of items. -/
structure CommitQueue where
  ProjectID : String
  Queue : List CommitQueueItem := []
deriving DecidableEq, Repr

/-- The document store: tasks, builds, versions, patches and commit
queues, plus the per-project stepback flags of the resolved project
configuration. -/
structure World where
  tasks : List Task := []
  builds : List Build := []
  versions : List Version := []
  patches : List Patch := []
  stepback : List (String × Bool) := []
  commitQueues : List CommitQueue := []
deriving DecidableEq, Repr

/-- Requester constants (`evergreen` package). Modelled from the spec:
requester classes are mainline / patch / github PR / merge-test / git-tag. -/
def RepotrackerVersionRequester : String := "gitter_request"

/-- Patch requester constant. -/
def PatchVersionRequester : String := "patch_request"

/-- GitHub PR requester constant. -/
def GithubPRRequester : String := "github_pull_request"

/-- Merge test (commit queue) requester constant. -/
def MergeTestRequester : String := "merge_test"

/-- Git tag requester constant. -/
def GitTagRequester : String := "git_tag_request"

/-- Modelled from the spec: `evergreen.IsPatchRequester` holds for the
patch-family requesters (patch, GitHub PR, merge test). -/
def IsPatchRequester (r : String) : Bool :=
  r == PatchVersionRequester || r == GithubPRRequester || r == MergeTestRequester

/-- Stepback activator constant. -/
def StepbackTaskActivator : String := "stepback"

/-- API server activator constant. -/
def APIServerTaskActivator : String := "apiserver"

/-- Default (system) task activator constant. -/
def DefaultTaskActivator : String := ""

/-- Modelled from the spec: `evergreen.IsSystemActivator` holds for the
automation callers (default, API server, stepback), as opposed to users. -/
def IsSystemActivator (caller : String) : Bool :=
  caller == DefaultTaskActivator || caller == APIServerTaskActivator ||
    caller == StepbackTaskActivator

/-- Modelled from the spec: `evergreen.IsUnstartedTaskStatus` holds for
the initial, pre-dispatch state of the lifecycle. -/
def IsUnstartedTaskStatus (s : TaskStatus) : Bool :=
  s == .undispatched

/-- Modelled from the spec: `evergreen.IsFailedTaskStatus` holds for the
failing variants (`failed`, `systemFailed`). -/
def IsFailedTaskStatus (s : TaskStatus) : Bool :=
  s == .failed || s == .systemFailed

/-- Modelled from the spec: a task status is finished when it is one of
the terminal states `succeeded`, `failed`, `systemFailed`. -/
def IsFinishedTaskStatus (s : TaskStatus) : Bool :=
  s == .succeeded || s == .failed || s == .systemFailed

/-- Modelled from the spec: `Task.IsFinished` — the task has reached a
terminal status. -/
def Task.IsFinished (t : Task) : Bool :=
  IsFinishedTaskStatus t.Status

/-- Modelled from the spec: a dependency edge's requirement is satisfied
by a finishing status when the requirement is the wildcard or equals the
status (the Go query's `okStatusSet = [AllStatuses, t.Status]`). -/
def depStatusSatisfied (finishing : TaskStatus) (r : DepStatus) : Bool :=
  match r with
  | .allStatuses => true
  | .status s => s == finishing

/-- Modelled from the spec: the derived, non-stored `blocked` condition —
some dependency edge has `unattainable = true` and the task does not
override its dependencies (spec section 4.1). -/
def Task.Blocked (t : Task) : Bool :=
  !t.OverrideDependencies && t.DependsOn.any (fun d => d.Unattainable)

/-- Modelled from the spec: membership in a single-host task group —
a non-empty task group name with `maxHostsForGroup` equal to one. -/
def Task.IsPartOfSingleHostTaskGroup (t : Task) : Bool :=
  t.TaskGroup != "" && t.TaskGroupMaxHosts == 1

/-- Modelled from the spec: a task is part of a display task when it
carries a display-task back-reference. -/
def Task.IsPartOfDisplay (t : Task) : Bool :=
  t.DisplayTaskId != ""

/-- Modelled from the spec: a host task (as opposed to a container/pod
task) has an empty or `host` execution platform. -/
def Task.IsHostTask (t : Task) : Bool :=
  t.ExecutionPlatform == "" || t.ExecutionPlatform == "host"

/-- Find a task document by id. -/
def World.findTask (w : World) (id : String) : Option Task :=
  w.tasks.find? (fun t => t.Id == id)

/-- Find a build document by id. -/
def World.findBuild (w : World) (id : String) : Option Build :=
  w.builds.find? (fun b => b.Id == id)

/-- Find a version document by id. -/
def World.findVersion (w : World) (id : String) : Option Version :=
  w.versions.find? (fun v => v.Id == id)

/-- Find a patch document by id. -/
def World.findPatch (w : World) (id : String) : Option Patch :=
  w.patches.find? (fun p => p.Id == id)

/-- Atomically update the task document with the given id. -/
def World.updateTask (w : World) (id : String) (f : Task → Task) : World :=
  { w with tasks := w.tasks.map (fun t => if t.Id == id then f t else t) }

/-- Atomically update the build document with the given id. -/
def World.updateBuild (w : World) (id : String) (f : Build → Build) : World :=
  { w with builds := w.builds.map (fun b => if b.Id == id then f b else b) }

/-- Atomically update the version document with the given id. -/
def World.updateVersion (w : World) (id : String) (f : Version → Version) : World :=
  { w with versions := w.versions.map (fun v => if v.Id == id then f v else v) }

/-- Atomically update the patch document with the given id. -/
def World.updatePatch (w : World) (id : String) (f : Patch → Patch) : World :=
  { w with patches := w.patches.map (fun p => if p.Id == id then f p else p) }

/-- Observable actions of the lifecycle operations. Every state-changing
(or, for version/patch documents, state-reading) step of an operation
appends one of these to the returned event list, so claims about "no
propagation happened" or "the version document was never read" can be
stated about the log. -/
inductive Ev
  | taskMarkedEnd (id : String) (s : TaskStatus)
  | unattainableMarked (taskId depId : String) (val : Bool)
  | depsFinishedMarked (taskId : String) (val : Bool)
  | taskActivated (id caller : String)
  | taskDeactivated (id caller : String)
  | taskArchived (id : String)
  | taskWasReset (id : String)
  | resetWhenFinishedSet (id : String)
  | generatedTasksToActivateSet (id : String)
  | versionsActivated (ids : List String)
  | versionTasksRestarted (version : String)
  | dependencyRemoved (taskId depId : String)
  | dependencyAdded (taskId depId : String)
  | mergeTaskUnscheduled (id : String)
  | displayTaskUpdated (id : String) (s : TaskStatus)
  | commitQueueItemRemoved (proj issue : String)
  | patchCancelled (id : String)
  | buildBlockedSet (id : String) (v : Bool)
  | buildAbortedSet (id : String) (v : Bool)
  | buildStatusSet (id : String) (s : BuildStatus)
  | buildGithubStatusSet (id : String) (s : BuildStatus)
  | makespansUpdated (id : String)
  | versionRead (id : String)
  | versionAbortedSet (id : String) (v : Bool)
  | versionStatusSet (id : String) (s : VersionStatus)
  | patchRead (id : String)
  | patchStatusSet (id : String) (s : PatchStatus)
deriving DecidableEq, Repr

/-! ## Commit queue (`src/model/commitqueue/commit_queue.go`) -/

/-- Find a project's commit queue document. -/
def World.findCommitQueue (w : World) (projectId : String) : Option CommitQueue :=
  w.commitQueues.find? (fun q => q.ProjectID == projectId)

/-- Persist a commit queue document (replace by project id). -/
def World.putCommitQueue (w : World) (q : CommitQueue) : World :=
  { w with commitQueues := w.commitQueues.map (fun c =>
      if c.ProjectID == q.ProjectID then q else c) }

/-- The Go loop body of `CommitQueue.FindItem`: scan the queue carrying
the current index, returning the index of the first match and `-1` when
none matches. -/
def findItemGo : List CommitQueueItem → Nat → String → Int
  | [], _, _ => -1
  | q :: rest, i, issue =>
    if q.Issue == issue || q.Version == issue || q.PatchId == issue then (i : Int)
    else findItemGo rest (i + 1) issue

/-- `FindItem`: index of the first entry whose issue, version id or patch
id equals the given string; `-1` when none matches. -/
def CommitQueue.FindItem (q : CommitQueue) (issue : String) : Int :=
  findItemGo q.Queue 0 issue

/-- `Enqueue`: reject with the existing position and an error when the
item is already found; otherwise stamp the enqueue time with the current
time and append at the tail, returning the new last position. -/
def CommitQueue.Enqueue (q : CommitQueue) (now : Nat) (item : CommitQueueItem) :
    CommitQueue × Int × Option String :=
  let position := q.FindItem item.Issue
  if position ≥ 0 then (q, position, some "item already in queue")
  else
    let item := { item with EnqueueTime := now }
    let queue := q.Queue ++ [item]
    ({ q with Queue := queue }, (queue.length : Int) - 1, none)

/-- The Go loop computing the splice position of `EnqueueAtFront`: the
length of the prefix of processing (version-assigned) entries. -/
def processingPrefixLen : List CommitQueueItem → Nat
  | [] => 0
  | it :: rest => if it.Version != "" then processingPrefixLen rest + 1 else 0

/-- `EnqueueAtFront`: reject when already found; otherwise splice the
item immediately after the processing prefix. -/
def CommitQueue.EnqueueAtFront (q : CommitQueue) (now : Nat) (item : CommitQueueItem) :
    CommitQueue × Int × Option String :=
  let position := q.FindItem item.Issue
  if position ≥ 0 then (q, position, some "item already in queue")
  else
    let newPos := processingPrefixLen q.Queue
    let item := { item with EnqueueTime := now }
    if q.Queue.length == 0 then
      ({ q with Queue := q.Queue ++ [item] }, (newPos : Int), none)
    else
      ({ q with Queue := q.Queue.take newPos ++ item :: q.Queue.drop newPos }, (newPos : Int), none)

/-- `Remove`: delete the entry found for the given identifier, returning
it; `(q, none)` when nothing matches. -/
def CommitQueue.Remove (q : CommitQueue) (issue : String) : CommitQueue × Option CommitQueueItem :=
  let itemIndex := q.FindItem issue
  if itemIndex < 0 then (q, none)
  else
    let i := itemIndex.toNat
    match q.Queue.get? i with
    | none => (q, none)
    | some item => ({ q with Queue := q.Queue.take i ++ q.Queue.drop (i + 1) }, some item)

/-- `UpdateVersion`: record the version id on every entry with the item's
issue, transitioning it from "unprocessed" to "processing". -/
def CommitQueue.UpdateVersion (q : CommitQueue) (item : CommitQueueItem) : CommitQueue :=
  { q with Queue := q.Queue.map (fun cur =>
      if cur.Issue == item.Issue then { cur with Version := item.Version } else cur) }

/-- The `AllStatuses` (`"*"`) dependency requirement constant. -/
def AllStatuses : DepStatus := .allStatuses

/-- Modelled from the spec: `task.FindMergeTaskForVersion` — the merge
task of the version running a commit-queue item's merge test. -/
def findMergeTaskForVersion (w : World) (version : String) : Option Task :=
  w.tasks.find? (fun t => t.CommitQueueMerge && t.Version == version)

/-- Modelled from the spec: `Task.RemoveDependency` deletes the edges of
the task on the given target task id. -/
def World.removeDependency (w : World) (taskId depId : String) : World × List Ev :=
  (w.updateTask taskId (fun t =>
      { t with DependsOn := t.DependsOn.filter (fun d => !(d.TaskId == depId)) }),
   [Ev.dependencyRemoved taskId depId])

/-- Modelled from the spec: `Task.AddDependency` appends a dependency
edge to the task. -/
def World.addDependency (w : World) (taskId : String) (d : Dependency) : World × List Ev :=
  (w.updateTask taskId (fun t => { t with DependsOn := t.DependsOn ++ [d] }),
   [Ev.dependencyAdded taskId d.TaskId])

/-- `removeNextMergeTaskDependency`: make the next item's merge task not
depend on the current one's, and depend on the previous one's instead
when there is a previous item. No-op when the current item is last or
the next item is unprocessed. The two unreachable `get?` misses and the
nil dereference of the Go code are modelled as errors. -/
def removeNextMergeTaskDependency (w : World) (cq : CommitQueue) (currentIssue : String) :
    Except String (World × List Ev) :=
  let currentIndex := cq.FindItem currentIssue
  if currentIndex < 0 then .error "commit queue item not found"
  else if currentIndex + 1 ≥ (cq.Queue.length : Int) then .ok (w, [])
  else
    match cq.Queue.get? (currentIndex.toNat + 1) with
    | none => .error "index out of range"
    | some nextItem =>
      if nextItem.Version == "" then .ok (w, [])
      else
        match findMergeTaskForVersion w nextItem.Version with
        | none => .error "no merge task found"
        | some nextMerge =>
          match cq.Queue.get? currentIndex.toNat with
          | none => .error "index out of range"
          | some currentItem =>
            match findMergeTaskForVersion w currentItem.Version with
            | none => .error "nil current merge task"
            | some currentMerge =>
              let (w1, evs1) := w.removeDependency nextMerge.Id currentMerge.Id
              if currentIndex > 0 then
                match cq.Queue.get? (currentIndex.toNat - 1) with
                | none => .error "index out of range"
                | some prevItem =>
                  match findMergeTaskForVersion w1 prevItem.Version with
                  | none => .error "no merge task found"
                  | some prevMerge =>
                    let d : Dependency := { TaskId := prevMerge.Id, Status := AllStatuses }
                    let (w2, evs2) := w1.addDependency nextMerge.Id d
                    .ok (w2, evs1 ++ evs2)
              else
                .ok (w1, evs1)

/-! ## Aggregation engine (`getBuildStatus`, `updateBuildStatus`,
`getVersionStatus`, `updateVersionStatus`, `UpdatePatchStatus`,
`UpdateBuildAndVersionStatusForTask`) -/

/-- The first loop of `getBuildStatus`: compute `(noStartedTasks,
allTasksBlocked)`, breaking with `(false, false)` at the first task that
has left its un-started state, and clearing `allTasksBlocked` at every
unblocked task seen before that. -/
def buildStatusFlagsLoop : List Task → Bool × Bool
  | [] => (true, true)
  | t :: rest =>
    if !IsUnstartedTaskStatus t.Status then (false, false)
    else
      let (ns, ab) := buildStatusFlagsLoop rest
      (ns, t.Blocked && ab)

/-- `getBuildStatus`: the build status derived from the build's tasks in
fixed priority order, and whether all tasks are blocked. -/
def getBuildStatus (buildTasks : List Task) : BuildStatus × Bool :=
  let (noStartedTasks, allTasksBlocked) := buildStatusFlagsLoop buildTasks
  if noStartedTasks || allTasksBlocked then (.created, allTasksBlocked)
  else if buildTasks.any (fun t => t.Status == .started ||
      (t.Activated && !t.Blocked && !t.IsFinished)) then (.started, false)
  else if buildTasks.any (fun t => IsFailedTaskStatus t.Status || t.Aborted) then
    (.failed, false)
  else (.succeeded, false)

/-- Modelled from the spec: `evergreen.IsFinishedBuildStatus` — failed or
succeeded. -/
def IsFinishedBuildStatus (s : BuildStatus) : Bool :=
  s == .failed || s == .succeeded

/-- Modelled from the spec: `evergreen.IsFinishedVersionStatus` — failed
or succeeded. -/
def IsFinishedVersionStatus (s : VersionStatus) : Bool :=
  s == .failed || s == .succeeded

/-- Modelled from the spec: `evergreen.IsFinishedPatchStatus` — failed or
succeeded. -/
def IsFinishedPatchStatus (s : PatchStatus) : Bool :=
  s == .failed || s == .succeeded

/-- `getVersionStatus`: the version status derived from its builds, the
same rank over build activation, finished state and all-blocked flag. -/
def getVersionStatus (builds : List Build) : VersionStatus :=
  if builds.all (fun b => b.Status == .created) then .created
  else if builds.any (fun b =>
      b.Activated && !IsFinishedBuildStatus b.Status && !b.AllTasksBlocked) then .started
  else if builds.any (fun b => b.Status == .failed || b.Aborted) then .failed
  else .succeeded

/-- The tasks of a build (`task.ByBuildId` with the status fields). -/
def tasksByBuildId (w : World) (buildId : String) : List Task :=
  w.tasks.filter (fun t => t.BuildId == buildId)

/-- The builds of a version (`build.ByVersion`). -/
def buildsByVersion (w : World) (versionId : String) : List Build :=
  w.builds.filter (fun b => b.Version == versionId)

/-- Modelled from the spec: `build.SetAllTasksBlocked` persists the
all-tasks-blocked flag (written even when the overall status is
unchanged, so full-block state is independently observable). -/
def buildSetAllTasksBlocked (w : World) (id : String) (v : Bool) : World × List Ev :=
  (w.updateBuild id (fun b => { b with AllTasksBlocked := v }), [Ev.buildBlockedSet id v])

/-- Modelled from the spec: `build.SetAborted` records the recomputed
aborted flag. -/
def buildSetAborted (w : World) (id : String) (v : Bool) : World × List Ev :=
  (w.updateBuild id (fun b => { b with Aborted := v }), [Ev.buildAbortedSet id v])

/-- Modelled from the spec: `build.MarkFinished` records a terminal
status (the finish timestamp is not modelled). -/
def buildMarkFinished (w : World) (id : String) (s : BuildStatus) : World × List Ev :=
  (w.updateBuild id (fun b => { b with Status := s }), [Ev.buildStatusSet id s])

/-- Modelled from the spec: `build.UpdateStatus` records a non-terminal
status. -/
def buildUpdateStatus (w : World) (id : String) (s : BuildStatus) : World × List Ev :=
  (w.updateBuild id (fun b => { b with Status := s }), [Ev.buildStatusSet id s])

/-- Modelled from the spec: `updateMakespans` recomputes the build's
predicted and actual makespans; the makespan fields themselves are not
modelled, only that the write happened. -/
def updateMakespans (w : World) (b : Build) : World × List Ev :=
  (w, [Ev.makespansUpdated b.Id])

/-- `updateBuildGithubStatus`: recompute the GitHub-check status subset
over the github-check tasks only, and record it when it changed. -/
def updateBuildGithubStatus (w : World) (b : Build) (buildTasks : List Task) : World × List Ev :=
  let githubStatusTasks := buildTasks.filter (fun t => t.IsGithubCheck)
  if githubStatusTasks.length == 0 then (w, [])
  else
    let githubBuildStatus := (getBuildStatus githubStatusTasks).1
    if githubBuildStatus == b.GithubCheckStatus then (w, [])
    else
      (w.updateBuild b.Id (fun bb => { bb with GithubCheckStatus := githubBuildStatus }),
       [Ev.buildGithubStatusSet b.Id githubBuildStatus])

/-- `updateBuildStatus`: derive the build's status from its tasks,
persist the all-blocked flag, and on a status change recompute the
aborted flag, record the new status and refresh makespans and the
GitHub-check subset. Returns whether the build's status changed or all
of its tasks became blocked. -/
def updateBuildStatus (w : World) (b : Build) : Bool × World × List Ev :=
  let buildTasks := tasksByBuildId w b.Id
  let (buildStatus, allTasksBlocked) := getBuildStatus buildTasks
  let blockedChanged := allTasksBlocked != b.AllTasksBlocked
  let (w1, evs1) := buildSetAllTasksBlocked w b.Id allTasksBlocked
  if buildStatus == b.Status then (blockedChanged, w1, evs1)
  else
    let isAborted :=
      !((buildTasks.filter (fun t => !t.Aborted)).any (fun t => IsFailedTaskStatus t.Status)) &&
        buildTasks.any (fun t => t.Aborted)
    let (w2, evs2) :=
      if isAborted != b.Aborted then buildSetAborted w1 b.Id isAborted else (w1, [])
    if IsFinishedBuildStatus buildStatus then
      let (w3, evs3) := buildMarkFinished w2 b.Id buildStatus
      let (w4, evs4) := updateMakespans w3 b
      let (w5, evs5) := updateBuildGithubStatus w4 b buildTasks
      (true, w5, evs1 ++ evs2 ++ evs3 ++ evs4 ++ evs5)
    else
      let (w3, evs3) := buildUpdateStatus w2 b.Id buildStatus
      let (w4, evs4) := updateBuildGithubStatus w3 b buildTasks
      (true, w4, evs1 ++ evs2 ++ evs3 ++ evs4)

/-- Modelled from the spec: `version.SetAborted`. -/
def versionSetAborted (w : World) (id : String) (v : Bool) : World × List Ev :=
  (w.updateVersion id (fun x => { x with Aborted := v }), [Ev.versionAbortedSet id v])

/-- Modelled from the spec: `version.MarkFinished` (timestamp not
modelled). -/
def versionMarkFinished (w : World) (id : String) (s : VersionStatus) : World × List Ev :=
  (w.updateVersion id (fun x => { x with Status := s }), [Ev.versionStatusSet id s])

/-- Modelled from the spec: `version.UpdateStatus`. -/
def versionUpdateStatus (w : World) (id : String) (s : VersionStatus) : World × List Ev :=
  (w.updateVersion id (fun x => { x with Status := s }), [Ev.versionStatusSet id s])

/-- `updateVersionGithubStatus`: recompute the GitHub-check subset over
the github-check builds. It only fires an out-of-scope notification and
writes no document, so the modelled effect is empty. -/
def updateVersionGithubStatus (w : World) (builds : List Build) : World × List Ev :=
  let githubStatusBuilds := (builds.filter (fun b => b.IsGithubCheck)).map
    (fun b => { b with Status := b.GithubCheckStatus })
  if githubStatusBuilds.length == 0 then (w, [])
  else (w, [])

/-- `updateVersionStatus`: derive the version's status from its builds;
on a change recompute the aborted flag and record the new status. -/
def updateVersionStatus (w : World) (v : Version) : VersionStatus × World × List Ev :=
  let builds := buildsByVersion w v.Id
  let (w1, evs1) := updateVersionGithubStatus w builds
  let versionStatus := getVersionStatus builds
  if versionStatus == v.Status then (versionStatus, w1, evs1)
  else
    let isAborted := builds.any (fun b => b.Aborted)
    let (w2, evs2) :=
      if isAborted != v.Aborted then versionSetAborted w1 v.Id isAborted else (w1, [])
    let (w3, evs3) :=
      if IsFinishedVersionStatus versionStatus then versionMarkFinished w2 v.Id versionStatus
      else versionUpdateStatus w2 v.Id versionStatus
    (versionStatus, w3, evs1 ++ evs2 ++ evs3)

/-- Modelled from the spec: `evergreen.VersionStatusToPatchStatus`, the
fixed one-to-one status mapping. -/
def VersionStatusToPatchStatus : VersionStatus → PatchStatus
  | .created => .created
  | .started => .started
  | .failed => .failed
  | .succeeded => .succeeded

/-- Modelled from the spec: `patch.MarkFinished` (timestamp not
modelled). -/
def patchMarkFinished (w : World) (id : String) (s : PatchStatus) : World × List Ev :=
  (w.updatePatch id (fun x => { x with Status := s }), [Ev.patchStatusSet id s])

/-- Modelled from the spec: `patch.UpdateStatus`. -/
def patchUpdateStatus (w : World) (id : String) (s : PatchStatus) : World × List Ev :=
  (w.updatePatch id (fun x => { x with Status := s }), [Ev.patchStatusSet id s])

/-- `UpdatePatchStatus`: map the version status to the patch status and
record it when it changed. -/
def UpdatePatchStatus (w : World) (p : Patch) (versionStatus : VersionStatus) : World × List Ev :=
  let patchStatus := VersionStatusToPatchStatus versionStatus
  if patchStatus == p.Status then (w, [])
  else if IsFinishedPatchStatus patchStatus then patchMarkFinished w p.Id patchStatus
  else patchUpdateStatus w p.Id patchStatus

/-- `UpdateBuildAndVersionStatusForTask`: update the task's build status;
if the build update reported no change, stop — otherwise fetch the
version (logged as a read), recompute it, and for patch requesters fetch
and update the patch as well. -/
def UpdateBuildAndVersionStatusForTask (w : World) (t : Task) : Except String (World × List Ev) :=
  match w.findBuild t.BuildId with
  | none => .error "no build found for task"
  | some taskBuild =>
    let (buildStatusChanged, w1, evs1) := updateBuildStatus w taskBuild
    if !buildStatusChanged then .ok (w1, evs1)
    else
      match w1.findVersion t.Version with
      | none => .error "no version found for task"
      | some taskVersion =>
        let (newVersionStatus, w2, evs2) := updateVersionStatus w1 taskVersion
        if IsPatchRequester taskVersion.Requester then
          match w2.findPatch taskVersion.Id with
          | none => .error "no patch found for version"
          | some p =>
            let (w3, evs3) := UpdatePatchStatus w2 p newVersionStatus
            .ok (w3, evs1 ++ [Ev.versionRead t.Version] ++ evs2 ++
              [Ev.patchRead taskVersion.Id] ++ evs3)
        else
          .ok (w2, evs1 ++ [Ev.versionRead t.Version] ++ evs2)

/-! ## Dependency graph accessor (`UpdateBlockedDependencies`,
`UpdateUnblockedDependencies`) -/

/-- Modelled from the spec: `FindAllUnmarkedBlockedDependencies` — the
tasks holding an edge on `t` whose requirement `t`'s current status does
not satisfy and whose unattainable mark is not yet set. -/
def findAllUnmarkedBlockedDependencies (w : World) (t : Task) : List Task :=
  w.tasks.filter (fun d => d.DependsOn.any (fun dep =>
    dep.TaskId == t.Id && !depStatusSatisfied t.Status dep.Status && !dep.Unattainable))

/-- Modelled from the spec: `FindAllMarkedUnattainableDependencies` — the
tasks holding an edge on `t` marked unattainable. -/
def findAllMarkedUnattainableDependencies (w : World) (t : Task) : List Task :=
  w.tasks.filter (fun d => d.DependsOn.any (fun dep =>
    dep.TaskId == t.Id && dep.Unattainable))

/-- Modelled from the spec: `MarkUnattainableDependency` sets the
unattainable mark on the task's edges on the given dependency id. -/
def markUnattainableDependency (w : World) (taskId depId : String) (v : Bool) : World × List Ev :=
  (w.updateTask taskId (fun t =>
      { t with DependsOn := t.DependsOn.map (fun d =>
          if d.TaskId == depId then { d with Unattainable := v } else d) }),
   [Ev.unattainableMarked taskId depId v])

/-- The recursion of `UpdateBlockedDependencies`, generalized over the
pending list of dependents of the task `srcId`: mark each dependent's
edge unattainable, then recurse into the dependent's own unmarked
blocked dependents. The fuel only bounds depth; the Go recursion
terminates because the dependency graph is acyclic. -/
def updateBlockedDependenciesFrom :
    Nat → World → String → List Task → Except String (World × List Ev)
  | _, w, _, [] => .ok (w, [])
  | 0, _, _, _ :: _ => .error "out of fuel"
  | fuel + 1, w, srcId, dependentTask :: rest => do
    let (w1, evs1) := markUnattainableDependency w dependentTask.Id srcId true
    let d1 := match w1.findTask dependentTask.Id with
      | some d => d
      | none => dependentTask
    let (w2, evs2) ←
      updateBlockedDependenciesFrom fuel w1 d1.Id (findAllUnmarkedBlockedDependencies w1 d1)
    let (w3, evs3) ← updateBlockedDependenciesFrom fuel w2 srcId rest
    .ok (w3, evs1 ++ evs2 ++ evs3)

/-- `UpdateBlockedDependencies`: recursively mark the task's transitive
dependents' unmet edges unattainable. -/
def UpdateBlockedDependencies (fuel : Nat) (w : World) (t : Task) :
    Except String (World × List Ev) :=
  updateBlockedDependenciesFrom fuel w t.Id (findAllUnmarkedBlockedDependencies w t)

/-- The recursion of `UpdateUnblockedDependencies`, generalized over the
pending list of tasks blocked on `srcId`: clear each one's mark, then
recurse into its own marked dependents. -/
def updateUnblockedDependenciesFrom :
    Nat → World → String → List Task → Except String (World × List Ev)
  | _, w, _, [] => .ok (w, [])
  | 0, _, _, _ :: _ => .error "out of fuel"
  | fuel + 1, w, srcId, blockedTask :: rest => do
    let (w1, evs1) := markUnattainableDependency w blockedTask.Id srcId false
    let d1 := match w1.findTask blockedTask.Id with
      | some d => d
      | none => blockedTask
    let (w2, evs2) ←
      updateUnblockedDependenciesFrom fuel w1 d1.Id (findAllMarkedUnattainableDependencies w1 d1)
    let (w3, evs3) ← updateUnblockedDependenciesFrom fuel w2 srcId rest
    .ok (w3, evs1 ++ evs2 ++ evs3)

/-- `UpdateUnblockedDependencies`: recursively clear the unattainable
marks of the task's transitive dependents. -/
def UpdateUnblockedDependencies (fuel : Nat) (w : World) (t : Task) :
    Except String (World × List Ev) :=
  updateUnblockedDependenciesFrom fuel w t.Id (findAllMarkedUnattainableDependencies w t)

/-- Modelled from the spec: `MarkDependenciesFinished` caches the
finished flag on every edge depending on the task. -/
def markDependenciesFinished (w : World) (taskId : String) (v : Bool) : World × List Ev :=
  ({ w with tasks := w.tasks.map (fun t =>
      { t with DependsOn := t.DependsOn.map (fun d =>
          if d.TaskId == taskId then { d with Finished := v } else d) }) },
   [Ev.depsFinishedMarked taskId v])

/-! ## Task-level primitives of the `task` package (modelled from the
spec where their source is outside the inspected corpus) -/

/-- `task.ByIds`: the task documents with the given ids. -/
def tasksByIds (w : World) (ids : List String) : List Task :=
  w.tasks.filter (fun t => ids.contains t.Id)

/-- Modelled from the spec: `Task.IsDispatchable` — still undispatched
and activated. -/
def Task.IsDispatchable (t : Task) : Bool :=
  t.Status == .undispatched && t.Activated

/-- Modelled from the spec: `Task.IsAbortable` — dispatched or started
(active, not yet finished). -/
def Task.IsAbortable (t : Task) : Bool :=
  t.Status == .started || t.Status == .dispatched

/-- Modelled from the spec: `Task.GetDisplayStatus` — the user-facing
status; a failure whose details carry the system command type displays
as `systemFailed`, otherwise the stored status is shown. -/
def Task.GetDisplayStatus (t : Task) : TaskStatus :=
  match t.Details with
  | some d => if t.Status == .failed && d.DetType == "system" then .systemFailed else t.Status
  | none => t.Status

/-- Modelled from the spec: `Task.MarkEnd` records the terminal status,
details and finish time on the task document. -/
def taskMarkEnd (w : World) (id : String) (finishTime : Nat) (detail : TaskEndDetail) :
    World × List Ev :=
  (w.updateTask id (fun t =>
      { t with Status := detail.Status, Details := some detail, FinishTime := finishTime }),
   [Ev.taskMarkedEnd id detail.Status])

/-- Modelled from the spec: `Task.ActivateTask` reactivates the task for
the caller. -/
def taskActivate (w : World) (id caller : String) : World × List Ev :=
  (w.updateTask id (fun t => { t with Activated := true, ActivatedBy := caller }),
   [Ev.taskActivated id caller])

/-- Modelled from the spec: `task.ActivateTasks` sets the activated flag
and activating caller on each given task. -/
def activateTasks (w : World) (ts : List Task) (caller : String) : World × List Ev :=
  (ts.foldl (fun acc t =>
      acc.updateTask t.Id (fun x => { x with Activated := true, ActivatedBy := caller })) w,
   ts.map (fun t => Ev.taskActivated t.Id caller))

/-- Modelled from the spec: `task.DeactivateTasks` clears the activated
flag on each given task for the caller. -/
def deactivateTasks (w : World) (ts : List Task) (caller : String) : World × List Ev :=
  (ts.foldl (fun acc t =>
      acc.updateTask t.Id (fun x => { x with Activated := false, ActivatedBy := caller })) w,
   ts.map (fun t => Ev.taskDeactivated t.Id caller))

/-- Modelled from the spec: `ActivateVersions` marks the versions as
activated. -/
def ActivateVersions (w : World) (ids : List String) : World × List Ev :=
  (ids.foldl (fun acc i => acc.updateVersion i (fun v => { v with Activated := true })) w,
   [Ev.versionsActivated ids])

/-- Modelled from the spec: `Task.SetResetWhenFinished` requests a
deferred reset of a task-group or display task. -/
def taskSetResetWhenFinished (w : World) (id : String) : World × List Ev :=
  (w.updateTask id (fun t => { t with ResetWhenFinished := true }),
   [Ev.resetWhenFinishedSet id])

/-- Modelled from the spec: `task.Reset` — increment the execution
number, return the task to `undispatched`, reactivate it and clear the
end-of-run state (abort, details, reset request, recorded times). -/
def taskReset (w : World) (id : String) : World × List Ev :=
  (w.updateTask id (fun t => { t with
      Activated := true, Status := .undispatched, Execution := t.Execution + 1,
      Aborted := false, Details := none, ResetWhenFinished := false,
      DispatchTime := 0, StartTime := 0, FinishTime := 0 }),
   [Ev.taskWasReset id])

/-- Modelled from the spec: `Task.Archive` stores the finished execution
in the archive collection; the archive itself is outside the model, so
only the action is recorded. -/
def taskArchive (w : World) (id : String) : World × List Ev :=
  (w, [Ev.taskArchived id])

/-- Modelled from the spec: `SetGeneratedTasksToActivate` notes on the
generator task which generated variant/task to activate after the next
generation; only the action is recorded. -/
def setGeneratedTasksToActivate (w : World) (id : String) : World × List Ev :=
  (w, [Ev.generatedTasksToActivateSet id])

/-- Modelled from the spec: `task.GetRecursiveDependenciesUp` — every
task the given tasks transitively depend on. Iterating the one-step
dependency expansion as many times as there are edges and documents
reaches the closure for every world. -/
def getRecursiveDependenciesUp (w : World) (ts : List Task) : List Task :=
  let step := fun (ids : List String) =>
    (ids ++ ids.flatMap (fun id =>
      match w.findTask id with
      | some t => t.DependsOn.map (fun d => d.TaskId)
      | none => [])).dedup
  let start := (ts.flatMap (fun t => t.DependsOn.map (fun d => d.TaskId))).dedup
  let bound := w.tasks.length + (w.tasks.map (fun t => t.DependsOn.length)).sum
  (step^[bound] start).filterMap (fun id => w.findTask id)

/-- Insertion step of the task-group ordering (stable sort by
`TaskGroupOrder`). -/
def insertByGroupOrder (t : Task) : List Task → List Task
  | [] => [t]
  | x :: xs =>
    if t.TaskGroupOrder < x.TaskGroupOrder then t :: x :: xs
    else x :: insertByGroupOrder t xs

/-- Modelled from the spec: `task.FindTaskGroupFromBuild` — the member
tasks of the task group within the build, in task-group order. -/
def findTaskGroupFromBuild (w : World) (buildId taskGroup : String) : List Task :=
  (w.tasks.filter (fun t => t.BuildId == buildId && t.TaskGroup == taskGroup)).foldr
    insertByGroupOrder []

/-- Modelled from the spec: the fixed display priority ordering of
statuses used to pick a display task's representative execution task
(running before failing before waiting before succeeded). -/
def displayStatusRank : TaskStatus → Nat
  | .started => 10
  | .failed => 20
  | .systemFailed => 30
  | .dispatched => 40
  | .undispatched => 50
  | .succeeded => 60

/-- `UpdateDisplayTaskForTask`: recompute a display task's borrowed
status, activation and details from its execution tasks. Cumulative
times are not modelled; the status/activation/details write is. -/
def UpdateDisplayTaskForTask (w : World) (t : Task) : Except String (World × List Ev) :=
  if !t.IsPartOfDisplay then .error "task is not an execution task"
  else
    match w.findTask t.DisplayTaskId with
    | none => .error "display task not found"
    | some dt =>
      if !dt.DisplayOnly then .error "task is not a display task"
      else
        match tasksByIds w dt.ExecutionTasks with
        | [] => .error "display task has no execution tasks"
        | e :: es =>
          let execTasks := e :: es
          let activated := dt.Activated || execTasks.any (fun x => x.Activated)
          let hasFinishedTasks := execTasks.any (fun x => x.IsFinished)
          let hasTasksToRun := execTasks.any (fun x =>
            (x.IsDispatchable || x.IsAbortable) && !x.Blocked)
          let statusTask := es.foldl (fun best x =>
            if displayStatusRank x.Status < displayStatusRank best.Status then x else best) e
          let statusTask :=
            if hasFinishedTasks && hasTasksToRun then
              { statusTask with Status := .started, Details := none }
            else statusTask
          let w1 := w.updateTask dt.Id (fun x =>
            { x with Status := statusTask.Status, Activated := activated,
                     Details := statusTask.Details })
          .ok (w1, [Ev.displayTaskUpdated dt.Id statusTask.Status])

/-! ## Reset machinery (`MarkOneTaskReset`, `resetTask`,
`resetManyTasks`) -/

/-- `MarkOneTaskReset` over a worklist of task ids (display tasks first
recurse into their execution tasks): reset each document, clear the
transitive unattainable marks of its dependents, and mark its direct
dependents' cached dependency state unfinished. -/
def markOneTaskResetList : Nat → World → List String → Except String (World × List Ev)
  | _, w, [] => .ok (w, [])
  | 0, _, _ :: _ => .error "out of fuel"
  | fuel + 1, w, id :: rest =>
    match w.findTask id with
    | none => .error "retrieving execution task"
    | some t => do
      let (w1, evs1) ←
        if t.DisplayOnly then markOneTaskResetList fuel w t.ExecutionTasks else .ok (w, [])
      let (w2, evs2) := taskReset w1 t.Id
      let (w3, evs3) ← UpdateUnblockedDependencies fuel w2 t
      let (w4, evs4) := markDependenciesFinished w3 t.Id false
      let (w5, evs5) ← markOneTaskResetList fuel w4 rest
      .ok (w5, evs1 ++ evs2 ++ evs3 ++ evs4 ++ evs5)

/-- `MarkOneTaskReset`: reset one task (recursing into execution tasks of
a display task), clear cached unattainable marks and unfinish the
dependents' cached dependency state. -/
def MarkOneTaskReset (fuel : Nat) (w : World) (t : Task) : Except String (World × List Ev) := do
  let (w1, evs1) ←
    if t.DisplayOnly then markOneTaskResetList fuel w t.ExecutionTasks else .ok (w, [])
  let (w2, evs2) := taskReset w1 t.Id
  let (w3, evs3) ← UpdateUnblockedDependencies fuel w2 t
  let (w4, evs4) := markDependenciesFinished w3 t.Id false
  .ok (w4, evs1 ++ evs2 ++ evs3 ++ evs4)

/-- `resetTask`: archive and reset one task, reactivate it and refresh
its build/version status. Resetting an execution task directly is an
error. -/
def resetTask (fuel : Nat) (w : World) (taskId caller : String) :
    Except String (World × List Ev) :=
  match w.findTask taskId with
  | none => .error "task not found"
  | some t =>
    if t.IsPartOfDisplay then
      .error "cannot restart execution task because it is part of a display task"
    else do
      let (w1, evs1) := taskArchive w t.Id
      let (w2, evs2) ← MarkOneTaskReset fuel w1 t
      let (w3, evs3) := taskActivate w2 t.Id caller
      let (w4, evs4) ← UpdateBuildAndVersionStatusForTask w3 t
      .ok (w4, evs1 ++ evs2 ++ evs3 ++ evs4)

/-- `resetManyTasks`: reset each of the given tasks in order. (The Go
catcher collects per-task errors and continues; the model stops at the
first error — the claims proved about it only concern error-free runs
and runs that change nothing.) -/
def resetManyTasks : Nat → World → List Task → String → Except String (World × List Ev)
  | _, w, [], _ => .ok (w, [])
  | fuel, w, t :: rest, caller => do
    let (w1, evs1) ← resetTask fuel w t.Id caller
    let (w2, evs2) ← resetManyTasks fuel w1 rest caller
    .ok (w2, evs1 ++ evs2)

/-! ## Commit queue failure handling (`RestartItemsAfterVersion`,
`DequeueAndRestartForTask`) -/

/-- Modelled from the spec: `SetDisabledPriority` disables the merge
task (negative priority) so it can no longer be scheduled. -/
def taskSetDisabledPriority (w : World) (id : String) : World × List Ev :=
  (w.updateTask id (fun t => { t with Priority := -1 }), [Ev.mergeTaskUnscheduled id])

/-- `preventMergeForItem`: disable the merge task of a removed item. -/
def preventMergeForItem (w : World) (item : CommitQueueItem) : Except String (World × List Ev) :=
  match findMergeTaskForVersion w item.Version with
  | none => .error "merge task does not exist"
  | some mergeTask => .ok (taskSetDisabledPriority w mergeTask.Id)

/-- `RemoveItemAndPreventMerge`: remove the item from the queue and,
when its version exists, disable its merge task. -/
def RemoveItemAndPreventMerge (w : World) (cq : CommitQueue) (issue : String)
    (versionExists : Bool) : Except String (World × Option CommitQueueItem × List Ev) :=
  let (cq1, removed) := cq.Remove issue
  let w1 := w.putCommitQueue cq1
  match removed with
  | none => .ok (w1, none, [])
  | some item =>
    if versionExists then do
      let (w2, evs2) ← preventMergeForItem w1 item
      .ok (w2, some item, Ev.commitQueueItemRemoved cq.ProjectID issue :: evs2)
    else .ok (w1, some item, [Ev.commitQueueItemRemoved cq.ProjectID issue])

/-- The loop of `RestartItemsAfterVersion`: stop at the first
unprocessed item; restart (via the task reset machinery, recorded here
as events) every processing item after the failing version. -/
def restartItemsLoop : List CommitQueueItem → String → Bool → List Ev
  | [], _, _ => []
  | item :: rest, version, foundItem =>
    if item.Version == "" then []
    else if item.Version == version then restartItemsLoop rest version true
    else if foundItem then
      Ev.versionTasksRestarted item.Version :: restartItemsLoop rest version foundItem
    else restartItemsLoop rest version foundItem

/-- `RestartItemsAfterVersion`: restart every already-processing item
after the failing one (their merge preconditions are stale). -/
def RestartItemsAfterVersion (w : World) (cq : CommitQueue) (version : String) :
    World × List Ev :=
  (w, restartItemsLoop cq.Queue version false)

/-- `tryDequeueAndAbortCommitQueueVersion`: relink the merge chain past
the failing item (a relink error is only logged), remove the item and
disable its merge task, and cancel the patch (the cascading abort is
recorded as an event; outward status reporting is out of scope). -/
def tryDequeueAndAbortCommitQueueVersion (w : World) (cq : CommitQueue) (p : Patch) :
    Except String (World × List Ev) := do
  let issue := p.Id
  let (w1, evs1) :=
    match removeNextMergeTaskDependency w cq issue with
    | .ok r => r
    | .error _ => (w, [])
  let (w2, removed, evs2) ← RemoveItemAndPreventMerge w1 cq issue true
  match removed with
  | none => .error "no commit queue entry removed"
  | some _ => .ok (w2, evs1 ++ evs2 ++ [Ev.patchCancelled p.Id])

/-- `DequeueAndRestartForTask`: restart all items after the given task's
version, then dequeue and abort the current version. -/
def DequeueAndRestartForTask (w : World) (t : Task) : Except String (World × List Ev) :=
  match w.findCommitQueue t.Project with
  | none => .error "commit queue not found"
  | some cq => do
    let (w1, evs1) := RestartItemsAfterVersion w cq t.Version
    match w1.findPatch t.Version with
    | none => .error "patch not found"
    | some p => do
      let (w2, evs2) ← tryDequeueAndAbortCommitQueueVersion w1 cq p
      .ok (w2, evs1 ++ evs2)

/-! ## `SetActiveState` -/

/-- Insert a version id when not yet present (the Go set, in insertion
order). -/
def insertNewString (l : List String) (s : String) : List String :=
  if l.contains s then l else l ++ [s]

/-- Upsert into the build-to-task map (the Go map, keyed by build id;
the last write for a key wins). -/
def upsertBuildTask : List (String × Task) → String → Task → List (String × Task)
  | [], k, v => [(k, v)]
  | (k0, v0) :: rest, k, v =>
    if k0 == k then (k0, v) :: rest else (k0, v0) :: upsertBuildTask rest k v

/-- The accumulated state of the `SetActiveState` loop over its input
tasks: current world and events, tasks to (de)activate, version ids
seen, and the build-to-task map. -/
structure SASAcc where
  w : World
  evs : List Ev
  tasksToActivate : List Task
  versionIds : List String
  buildToTaskMap : List (String × Task)
deriving Repr

/-- The dependency loop of `SetActiveState` for a task in a single-host
group: reset already-finished dependencies in the same group, collect
the others for activation. -/
def sasDepsLoop (fuel : Nat) (caller : String) (t : Task) :
    List Task → SASAcc → Except String SASAcc
  | [], acc => .ok acc
  | dep :: rest, acc =>
    if dep.TaskGroup == t.TaskGroup && t.TaskGroup != "" && dep.IsFinished then do
      let (w1, evs1) ← resetTask fuel acc.w dep.Id caller
      sasDepsLoop fuel caller t rest { acc with w := w1, evs := acc.evs ++ evs1 }
    else
      sasDepsLoop fuel caller t rest
        { acc with tasksToActivate := acc.tasksToActivate ++ [dep] }

/-- The per-task loop of `SetActiveState`: gather tasks to (de)activate
(dependencies on activation, later group members and commit-queue
fallout on deactivation), refreshing display tasks along the way. The
branch for a user-deactivation guard that fails skips the display
refresh (the Go `continue`). -/
def setActiveStateLoop (fuel : Nat) (caller : String) (active : Bool) :
    List Task → SASAcc → Except String SASAcc
  | [], acc => .ok acc
  | t :: rest, acc =>
    let originalTasks := t :: (if t.DisplayOnly then tasksByIds acc.w t.ExecutionTasks else [])
    let acc0 := { acc with
      versionIds := insertNewString acc.versionIds t.Version,
      buildToTaskMap := upsertBuildTask acc.buildToTaskMap t.BuildId t }
    if active then do
      let acc1 ←
        if !t.OverrideDependencies then
          let deps := getRecursiveDependenciesUp acc0.w originalTasks
          if t.IsPartOfSingleHostTaskGroup then sasDepsLoop fuel caller t deps acc0
          else .ok { acc0 with tasksToActivate := acc0.tasksToActivate ++ deps }
        else .ok acc0
      let acc2 ←
        if t.IsHostTask && t.DispatchTime != 0 && t.Status == .undispatched then do
          let (w1, evs1) ← resetTask fuel acc1.w t.Id caller
          .ok { acc1 with w := w1, evs := acc1.evs ++ evs1 }
        else .ok { acc1 with tasksToActivate := acc1.tasksToActivate ++ originalTasks }
      let acc3 ←
        if t.IsPartOfDisplay then do
          let (w1, evs1) ← UpdateDisplayTaskForTask acc2.w t
          .ok { acc2 with w := w1, evs := acc2.evs ++ evs1 }
        else .ok acc2
      setActiveStateLoop fuel caller active rest acc3
    else if !IsSystemActivator caller || IsSystemActivator t.ActivatedBy then do
      let originalTasks := originalTasks ++
        (if t.IsPartOfSingleHostTaskGroup then
          (findTaskGroupFromBuild acc0.w t.BuildId t.TaskGroup).filter
            (fun g => g.TaskGroupOrder > t.TaskGroupOrder)
        else [])
      let acc1 ←
        if t.Requester == MergeTestRequester then do
          let (w1, evs1) ← DequeueAndRestartForTask acc0.w t
          .ok { acc0 with w := w1, evs := acc0.evs ++ evs1 }
        else .ok acc0
      let acc2 := { acc1 with tasksToActivate := acc1.tasksToActivate ++ originalTasks }
      let acc3 ←
        if t.IsPartOfDisplay then do
          let (w1, evs1) ← UpdateDisplayTaskForTask acc2.w t
          .ok { acc2 with w := w1, evs := acc2.evs ++ evs1 }
        else .ok acc2
      setActiveStateLoop fuel caller active rest acc3
    else
      setActiveStateLoop fuel caller active rest acc0

/-- The trailing loop of `SetActiveState`: refresh build and version
status once per distinct build. -/
def ubvsLoop : World → List (String × Task) → Except String (World × List Ev)
  | w, [] => .ok (w, [])
  | w, (_, t) :: rest => do
    let (w1, evs1) ← UpdateBuildAndVersionStatusForTask w t
    let (w2, evs2) ← ubvsLoop w1 rest
    .ok (w2, evs1 ++ evs2)

/-- `SetActiveState`: activate (with recursively activated dependencies)
or deactivate (guarded against overriding a user's choice by automation
and vice versa) the given tasks, then refresh their builds/versions. -/
def SetActiveState (fuel : Nat) (w : World) (caller : String) (active : Bool)
    (tasks : List Task) : Except String (World × List Ev) := do
  let acc ← setActiveStateLoop fuel caller active tasks ⟨w, [], [], [], []⟩
  let (w1, evs1) :=
    if active then
      let (wa, ea) := activateTasks acc.w acc.tasksToActivate caller
      let (wb, eb) := ActivateVersions wa acc.versionIds
      (wb, ea ++ eb)
    else deactivateTasks acc.w acc.tasksToActivate caller
  let (w2, evs2) ← ubvsLoop w1 acc.buildToTaskMap
  .ok (w2, acc.evs ++ evs1 ++ evs2)

/-! ## Stepback controller (`activatePreviousTask`, `doStepback`,
`evalStepback`, `DeactivatePreviousTasks`) -/

/-- Modelled from the spec: `task.ByBeforeRevision` — the task with the
same build variant, display name, project and requester and the highest
revision order number strictly below the given one. -/
def byBeforeRevision (w : World) (revisionOrder : Nat)
    (buildVariant displayName project requester : String) : Option Task :=
  (w.tasks.filter (fun p =>
      p.BuildVariant == buildVariant && p.DisplayName == displayName &&
      p.Project == project && p.Requester == requester &&
      p.RevisionOrderNumber < revisionOrder)).foldl
    (fun best p =>
      match best with
      | none => some p
      | some b => if p.RevisionOrderNumber > b.RevisionOrderNumber then some p else best)
    none

/-- `activatePreviousTask`: find the previous run of the task; recurse
onto the generator for a generated task whose found run is not the
immediately preceding one; skip when the previous run is missing,
finished, negative-priority or already activated; otherwise activate
it. -/
def activatePreviousTask : Nat → World → String → String → Option Task →
    Except String (World × List Ev)
  | 0, _, _, _, _ => .error "out of fuel"
  | fuel + 1, w, taskId, caller, originalStepbackTask =>
    match w.findTask taskId with
    | none => .error "task does not exist"
    | some t =>
      let prevTask := byBeforeRevision w t.RevisionOrderNumber t.BuildVariant
        t.DisplayName t.Project t.Requester
      if t.GeneratedBy != "" &&
          ((prevTask.map (fun p => p.RevisionOrderNumber + 1 != t.RevisionOrderNumber)).getD
            false) then
        activatePreviousTask fuel w t.GeneratedBy caller (some t)
      else
        match prevTask with
        | none => .ok (w, [])
        | some prev =>
          if prev.IsFinished || prev.Priority < 0 || prev.Activated then .ok (w, [])
          else do
            let (w1, evs1) ← SetActiveState fuel w caller true [prev]
            if prev.GenerateTask && originalStepbackTask.isSome then
              let (w2, evs2) := setGeneratedTasksToActivate w1 prev.Id
              .ok (w2, evs1 ++ evs2)
            else .ok (w1, evs1)

/-- Modelled from the spec: `Task.PreviousCompletedTask` — the most
recent earlier run of this task (same build variant, display name,
project) whose status is among the given ones. -/
def previousCompletedTask (w : World) (t : Task) (project : String)
    (statuses : List TaskStatus) : Option Task :=
  (w.tasks.filter (fun p =>
      p.BuildVariant == t.BuildVariant && p.DisplayName == t.DisplayName &&
      p.Project == project && p.RevisionOrderNumber < t.RevisionOrderNumber &&
      statuses.contains p.Status)).foldl
    (fun best p =>
      match best with
      | none => some p
      | some b => if p.RevisionOrderNumber > b.RevisionOrderNumber then some p else best)
    none

/-- `doStepback` over a worklist of tasks: a display-only task first
steps back each of its execution tasks; a task's previous run is then
activated only when the task has a prior succeeded run in the project
(avoiding stepping backwards ad infinitum). -/
def doStepbackList : Nat → World → List Task → Except String (World × List Ev)
  | _, w, [] => .ok (w, [])
  | 0, _, _ :: _ => .error "out of fuel"
  | fuel + 1, w, t :: rest => do
    let (w1, evs1) ←
      if t.DisplayOnly then doStepbackList fuel w (tasksByIds w t.ExecutionTasks)
      else .ok (w, [])
    let (w2, evs2) ←
      match previousCompletedTask w1 t t.Project [.succeeded] with
      | none => .ok (w1, [])
      | some _ => activatePreviousTask fuel w1 t.Id StepbackTaskActivator none
    let (w3, evs3) ← doStepbackList fuel w2 rest
    .ok (w3, evs1 ++ evs2 ++ evs3)

/-- `doStepback`: perform a stepback on the task when it has a prior
succeeded run. -/
def doStepback (fuel : Nat) (w : World) (t : Task) : Except String (World × List Ev) :=
  doStepbackList fuel w [t]

/-- Modelled from the spec: `ByActivatedBeforeRevisionWithStatuses` —
the previously activated but still undispatched earlier runs of the
same build variant / display name / project. -/
def byActivatedBeforeRevisionWithStatuses (w : World) (revisionOrder : Nat)
    (buildVariant displayName project : String) : List Task :=
  w.tasks.filter (fun p =>
    p.BuildVariant == buildVariant && p.DisplayName == displayName &&
    p.Project == project && p.RevisionOrderNumber < revisionOrder &&
    p.Status == .undispatched && p.Activated)

/-- The deactivation loop of `DeactivatePreviousTasks`: skip patch
requesters, deactivate the rest. -/
def deactivatePreviousLoop : Nat → World → List Task → String →
    Except String (World × List Ev)
  | _, w, [], _ => .ok (w, [])
  | fuel, w, p :: rest, caller => do
    let (w1, evs1) ←
      if IsPatchRequester p.Requester then .ok (w, [])
      else SetActiveState fuel w caller false [p]
    let (w2, evs2) ← deactivatePreviousLoop fuel w1 rest caller
    .ok (w2, evs1 ++ evs2)

/-- `DeactivatePreviousTasks`: deactivate previously activated but still
undispatched earlier runs of the task (for a display task, also their
execution tasks when none has finished or is running). -/
def DeactivatePreviousTasks (fuel : Nat) (w : World) (t : Task) (caller : String) :
    Except String (World × List Ev) :=
  let allTasks := byActivatedBeforeRevisionWithStatuses w t.RevisionOrderNumber
    t.BuildVariant t.DisplayName t.Project
  let extraTasks :=
    if t.DisplayOnly then
      allTasks.flatMap (fun dt =>
        if dt.ExecutionTasks.length == 0 then []
        else
          let execTasks := tasksByIds w dt.ExecutionTasks
          if execTasks.all (fun et => !(et.IsFinished || et.IsAbortable)) then execTasks
          else [])
    else []
  deactivatePreviousLoop fuel w (allTasks ++ extraTasks) caller

/-- Modelled from the spec: `getStepback` resolves the stepback flag for
the task's project (the task- and build-variant-level overrides of the
resolved project configuration are collapsed into the per-project flag
carried by the world). -/
def getStepback (w : World) (t : Task) : Option Bool :=
  (w.stepback.find? (fun pr => pr.1 == t.Project)).map (fun pr => pr.2)

/-- The task-group prefix walked by stepback: every member up to and
including the failing task, in group order. -/
def takeUpToId : List Task → String → List Task
  | [], _ => []
  | x :: xs, id => if x.Id == id then [x] else x :: takeUpToId xs id

/-- `evalStepback`: on a non-aborted failure with stepback enabled, step
back (walking every earlier single-host-group member up to the failing
task); on a mainline success with the deactivate-previous policy,
deactivate the now-redundant earlier runs. -/
def evalStepback (fuel : Nat) (w : World) (t : Task) (caller : String)
    (status : TaskStatus) (deactivatePrevious : Bool) : Except String (World × List Ev) :=
  if status == .failed && !t.Aborted then
    match getStepback w t with
    | none => .error "getting project for stepback"
    | some shouldStepBack =>
      if !shouldStepBack then .ok (w, [])
      else if t.IsPartOfSingleHostTaskGroup then
        let tasks := findTaskGroupFromBuild w t.BuildId t.TaskGroup
        if tasks.length == 0 then .error "no tasks in task group"
        else doStepbackList fuel w (takeUpToId tasks t.Id)
      else doStepback fuel w t
  else if status == .succeeded && deactivatePrevious &&
      t.Requester == RepotrackerVersionRequester then
    DeactivatePreviousTasks fuel w t caller
  else .ok (w, [])

/-! ## Task group sequencer (`checkResetSingleHostTaskGroup`) -/

/-- The member scan of `checkResetSingleHostTaskGroup`: accumulate
whether any member requested a reset, deferring (`none`) at the first
member that is unfinished, unblocked and activated. -/
def checkResetScan : List Task → Bool → Option Bool
  | [], shouldReset => some shouldReset
  | t :: rest, shouldReset =>
    let shouldReset := shouldReset || t.ResetWhenFinished
    if !t.IsFinished && !t.Blocked && t.Activated then none
    else checkResetScan rest shouldReset

/-- `checkResetSingleHostTaskGroup`: once every member of the group is
finished or blocked, reset the whole group if at least one member
requested it; defer while a member still needs to run. The post-reset
re-fetch only logs a detected inconsistency and changes nothing. -/
def checkResetSingleHostTaskGroup (fuel : Nat) (w : World) (t : Task) (caller : String) :
    Except String (World × List Ev) :=
  if !t.IsPartOfSingleHostTaskGroup then .ok (w, [])
  else
    let tasks := findTaskGroupFromBuild w t.BuildId t.TaskGroup
    if tasks.length == 0 then .error "no tasks in task group"
    else
      match checkResetScan tasks false with
      | none => .ok (w, [])
      | some shouldReset =>
        if !shouldReset then .ok (w, [])
        else resetManyTasks fuel w tasks caller

/-! ## The finalize/reset cycle (`MarkEnd`, `TryResetTask`,
`checkResetDisplayTask`) -/

/-- Command type constant for test failures. -/
def CommandTypeTest : String := "test"

/-- Modelled from the spec: the description attached when a required
result set is missing. -/
def TaskDescriptionNoResults : String := "expected test results, but none attached"

/-- UI origin constant. -/
def UIPackage : String := "ui"

/-- REST v2 origin constant. -/
def RESTV2Package : String := "rest"

/-- The `evergreen` system user constant. -/
def EvergreenUser : String := "evergreen"

/-- Modelled from the spec: `evergreen.MaxTaskExecution`, the execution
cap on automatic restarts. -/
def MaxTaskExecution : Nat := 9

/-- External inputs of the finalize path that live outside the modelled
document store: the test-results store queries and the wall clock used
by `TryResetTask`'s forced finishes. -/
structure ResultsEnv where
  hasFailedTests : Bool := false
  resultsCount : Nat := 0
  now : Nat := 0
deriving Repr

/-- The mutually recursive entry points of the finalize/reset cycle
(`MarkEnd` calls `TryResetTask` and `checkResetDisplayTask`, which call
back into `MarkEnd`), encoded as the argument of one fuel-indexed step
function. `markEndList` is the loop of `TryResetTask`'s display branch
finishing each execution task. -/
inductive LCall
  | markEnd (t : Task) (caller : String) (finishTime : Nat) (detail : TaskEndDetail)
      (deactivatePrevious : Bool)
  | markEndList (ids : List String) (caller : String) (finishTime : Nat)
      (detail : TaskEndDetail)
  | tryResetTask (taskId user origin : String) (detail : Option TaskEndDetail)
  | checkResetDisplayTask (t : Task)

/-- One fuel-indexed interpreter for the finalize/reset cycle. Each arm
is the direct translation of the corresponding Go function; recursive
calls spend one unit of fuel (the Go recursion is bounded because
display nesting is flat and forced finishes happen at the execution
cap). -/
def lifecycleStep : Nat → World → ResultsEnv → LCall → Except String (World × List Ev)
  | 0, _, _, _ => .error "out of fuel"
  | fuel + 1, w, env, c =>
    match c with
    | .markEnd t caller finishTime detail deactivatePrevious =>
      let detailsCopy :=
        if env.hasFailedTests && !(detail.Status == .failed) then
          { detail with DetType := CommandTypeTest, Status := .failed }
        else detail
      if t.Status == detailsCopy.Status then .ok (w, [])
      else
        let detailsCopy :=
          if !t.HasCedarResults && detailsCopy.Status == .succeeded &&
              env.resultsCount == 0 && t.MustHaveResults then
            { detailsCopy with Status := .failed, Description := TaskDescriptionNoResults }
          else detailsCopy
        let (w1, evs1) := taskMarkEnd w t.Id finishTime detailsCopy
        let t1 := { t with Status := detailsCopy.Status, Details := some detailsCopy,
                           FinishTime := finishTime }
        do
        let (w2, evs2) ← UpdateBlockedDependencies fuel w1 t1
        let (w3, evs3) := markDependenciesFinished w2 t1.Id true
        let status := t1.GetDisplayStatus
        let (w4, evs4) ←
          if t1.IsPartOfDisplay then do
            let (wa, ea) ← UpdateDisplayTaskForTask w3 t1
            match wa.findTask t1.DisplayTaskId with
            | none => .error "getting display task"
            | some dt => do
              let (wb, eb) ← lifecycleStep fuel wa env (.checkResetDisplayTask dt)
              .ok (wb, ea ++ eb)
          else
            if t1.IsPartOfSingleHostTaskGroup then
              checkResetSingleHostTaskGroup fuel w3 t1 caller
            else .ok (w3, [])
        let (w5, evs5) ←
          if !(IsPatchRequester t1.Requester) then
            if t1.IsPartOfDisplay then
              match w4.findTask t1.DisplayTaskId with
              | none => .error "getting display task"
              | some dt => evalStepback fuel w4 dt caller dt.Status deactivatePrevious
            else evalStepback fuel w4 t1 caller status deactivatePrevious
          else .ok (w4, [])
        let (w6, evs6) ← UpdateBuildAndVersionStatusForTask w5 t1
        if t1.ResetWhenFinished && !t1.IsPartOfDisplay && !t1.IsPartOfSingleHostTaskGroup then do
          let (w7, evs7) ← lifecycleStep fuel w6 env
            (.tryResetTask t1.Id APIServerTaskActivator "" (some detail))
          .ok (w7, evs1 ++ evs2 ++ evs3 ++ evs4 ++ evs5 ++ evs6 ++ evs7)
        else .ok (w6, evs1 ++ evs2 ++ evs3 ++ evs4 ++ evs5 ++ evs6)
    | .markEndList ids caller finishTime detail =>
      match ids with
      | [] => .ok (w, [])
      | id :: rest =>
        match w.findTask id with
        | none => .error "finding execution task"
        | some execTask => do
          let (w1, evs1) ← lifecycleStep fuel w env
            (.markEnd execTask caller finishTime detail false)
          let (w2, evs2) ← lifecycleStep fuel w1 env
            (.markEndList rest caller finishTime detail)
          .ok (w2, evs1 ++ evs2)
    | .tryResetTask taskId user origin detail =>
      match w.findTask taskId with
      | none => .error "cannot restart task because it could not be found"
      | some t =>
        if t.IsPartOfDisplay then
          .error "cannot restart execution task because it is part of a display task"
        else
          let cont : World → Except String (World × List Ev) := fun w0 =>
            if !t.IsFinished && (origin == UIPackage || origin == RESTV2Package) then
              .error "cannot reset task in this status"
            else
              let (w1, evs1) :=
                match detail with
                | some d => taskMarkEnd w0 t.Id env.now d
                | none => (w0, [])
              let caller := if origin == UIPackage || origin == RESTV2Package then user
                else origin
              if t.IsPartOfSingleHostTaskGroup then do
                let (w2, evs2) := taskSetResetWhenFinished w1 t.Id
                let (w3, evs3) ← checkResetSingleHostTaskGroup fuel w2 t caller
                .ok (w3, evs1 ++ evs2 ++ evs3)
              else do
                let (w2, evs2) ← resetTask fuel w1 t.Id caller
                .ok (w2, evs1 ++ evs2)
          if t.Execution ≥ MaxTaskExecution then
            if origin == UIPackage || origin == RESTV2Package then cont w
            else if !t.IsFinished then
              match detail with
              | some d => do
                let (w1, evs1) ←
                  if t.DisplayOnly then
                    lifecycleStep fuel w env (.markEndList t.ExecutionTasks origin env.now d)
                  else .ok (w, [])
                let (w2, evs2) ← lifecycleStep fuel w1 env
                  (.markEnd t origin env.now d false)
                .ok (w2, evs1 ++ evs2)
              | none => cont w
            else .ok (w, [])
          else cont w
    | .checkResetDisplayTask t =>
      if !t.ResetWhenFinished then .ok (w, [])
      else
        let execTasks := tasksByIds w t.ExecutionTasks
        if execTasks.any (fun e => !e.IsFinished && !e.Blocked && e.Activated) then .ok (w, [])
        else
          lifecycleStep fuel w env (.tryResetTask t.Id EvergreenUser EvergreenUser t.Details)

/-- `MarkEnd`: finish a task — double-finish guard, forced failure on
failed or missing-but-required results, terminal status write, blocking
propagation, display/task-group bookkeeping, stepback evaluation,
build/version aggregation and the deferred reset. -/
def MarkEnd (fuel : Nat) (w : World) (env : ResultsEnv) (t : Task) (caller : String)
    (finishTime : Nat) (detail : TaskEndDetail) (deactivatePrevious : Bool) :
    Except String (World × List Ev) :=
  lifecycleStep fuel w env (.markEnd t caller finishTime detail deactivatePrevious)

/-- `TryResetTask`: reset a finished task (with the execution-cap
exception paths), deferring single-host-group members to the group
check. -/
def TryResetTask (fuel : Nat) (w : World) (env : ResultsEnv)
    (taskId user origin : String) (detail : Option TaskEndDetail) :
    Except String (World × List Ev) :=
  lifecycleStep fuel w env (.tryResetTask taskId user origin detail)

/-- `checkResetDisplayTask`: reset a display task once every execution
task is finished or blocked, when a reset was requested. -/
def checkResetDisplayTask (fuel : Nat) (w : World) (env : ResultsEnv) (t : Task) :
    Except String (World × List Ev) :=
  lifecycleStep fuel w env (.checkResetDisplayTask t)

/-! ## Spec-side characterizations and concrete instances used by the
claim theorems -/

/-- An entry matches an identifier when its issue, version id or patch
id equals it (the disjunction of `FindItem`). -/
def cqItemMatches (s : String) (e : CommitQueueItem) : Bool :=
  e.Issue == s || e.Version == s || e.PatchId == s

/-- The build status in the spec's priority order, with the first rule
amended to what the code computes: `created` exactly when no task has
left its un-started state; else `started` when some task is started or
some activated task is unblocked and unfinished; else `failed` when
some task has a failing status or is aborted; else `succeeded`. -/
def buildStatusSpec (l : List Task) : BuildStatus :=
  if l.all (fun t => IsUnstartedTaskStatus t.Status) then .created
  else if l.any (fun t => t.Status == .started ||
      (t.Activated && !t.Blocked && !t.IsFinished)) then .started
  else if l.any (fun t => IsFailedTaskStatus t.Status || t.Aborted) then .failed
  else .succeeded

/-- A task of a single-host task group that still needs to run:
unfinished, unblocked and activated. -/
def stillNeedsRun (t : Task) : Bool :=
  !t.IsFinished && !t.Blocked && t.Activated

/-- A three-task dependency chain A ← B ← C (B depends on A, C depends
on B) with the given finishing status of `A` and required statuses of
the two edges, all marks clear. -/
def chainWorld (sA : TaskStatus) (rB rC : DepStatus) : World :=
  { tasks := [
      { Id := "A", Status := sA },
      { Id := "B", DependsOn := [{ TaskId := "A", Status := rB }] },
      { Id := "C", DependsOn := [{ TaskId := "B", Status := rC }] }] }

/-- The finished head task of the chain. -/
def chainTaskA (sA : TaskStatus) : Task := { Id := "A", Status := sA }

/-- The chain world with both edges marked unattainable. -/
def blockedChainWorld (sA : TaskStatus) (rB rC : DepStatus) : World :=
  { tasks := [
      { Id := "A", Status := sA },
      { Id := "B", DependsOn := [{ TaskId := "A", Status := rB, Unattainable := true }] },
      { Id := "C", DependsOn := [{ TaskId := "B", Status := rC, Unattainable := true }] }] }

/-- A queue whose only entry has issue `A` and version id `123`. -/
def versionMatchQueue : CommitQueue :=
  { ProjectID := "p", Queue := [{ Issue := "A", Version := "123" }] }

/-- A queue whose only entry has issue `A` and patch id `123`. -/
def patchMatchQueue : CommitQueue :=
  { ProjectID := "p", Queue := [{ Issue := "A", PatchId := "123" }] }

/-- A started task that is nonetheless blocked (an unattainable edge). -/
def startedBlockedTask : Task :=
  { Id := "X", Status := .started,
    DependsOn := [{ TaskId := "Y", Status := .status .succeeded, Unattainable := true }] }

/-- A finished (succeeded) mainline task in a one-task build, used to
exercise a double finish. -/
def succeededTask : Task :=
  { Id := "F", Status := .succeeded, Activated := true, Project := "proj",
    Requester := "gitter_request", BuildId := "b1", Version := "v1" }

/-- The world of `succeededTask`: its build and version already
succeeded, stepback disabled for the project. -/
def succeededWorld : World :=
  { tasks := [succeededTask],
    builds := [{ Id := "b1", Status := .succeeded, Activated := true, Version := "v1" }],
    versions := [{ Id := "v1", Status := .succeeded, Requester := "gitter_request" }],
    stepback := [("proj", false)] }

/-- A blocked, undispatched task whose build already has status
`created` but has not yet recorded the all-blocked flag. -/
def blockedOnlyTask : Task :=
  { Id := "H", Status := .undispatched, BuildId := "b7", Version := "v7",
    DependsOn := [{ TaskId := "Z", Status := .status .succeeded, Unattainable := true }] }

/-- The world of `blockedOnlyTask`: the build's derived status equals
its stored status (`created`) while the all-blocked flag flips. -/
def blockedFlagWorld : World :=
  { tasks := [blockedOnlyTask],
    builds := [{ Id := "b7", Status := .created, AllTasksBlocked := false, Version := "v7" }],
    versions := [{ Id := "v7", Status := .created, Requester := "gitter_request" }] }

/-- A generated failing task at revision order 3 whose previous run is
at revision order 1 (so not the immediately preceding run). -/
def generatedTask : Task :=
  { Id := "T", Status := .failed, GeneratedBy := "gen", BuildVariant := "bv",
    DisplayName := "tname", Project := "proj", Requester := "gitter_request",
    RevisionOrderNumber := 3 }

/-- The eligible previous run of `generatedTask`: unfinished,
non-negative priority, not activated. -/
def generatedPrev : Task :=
  { Id := "P", Status := .undispatched, BuildVariant := "bv", DisplayName := "tname",
    Project := "proj", Requester := "gitter_request", RevisionOrderNumber := 1 }

/-- The world of `generatedTask`: its generator has no previous run, so
the generator recursion is a no-op while `generatedPrev` stays
untouched. -/
def generatedWorld : World :=
  { tasks := [generatedTask, generatedPrev,
      { Id := "gen", Status := .succeeded, BuildVariant := "bv", DisplayName := "genname",
        Project := "proj", Requester := "gitter_request", RevisionOrderNumber := 3,
        GenerateTask := true }] }

/-- A display task with one execution task whose earlier runs include a
success at revision order 1 and an eligible unactivated run at revision
order 2, while the display task itself has no prior run at all. -/
def displayStepTask : Task :=
  { Id := "D", Status := .failed, DisplayOnly := true, ExecutionTasks := ["E"],
    BuildVariant := "bv", DisplayName := "dtask", Project := "proj",
    Requester := "gitter_request", RevisionOrderNumber := 3 }

/-- The world of `displayStepTask`. -/
def displayStepWorld : World :=
  { tasks := [displayStepTask,
      { Id := "E", Status := .failed, BuildVariant := "bv", DisplayName := "etask",
        Project := "proj", Requester := "gitter_request", RevisionOrderNumber := 3,
        DisplayTaskId := "D", BuildId := "b9", Version := "v9" },
      { Id := "E0", Status := .succeeded, BuildVariant := "bv", DisplayName := "etask",
        Project := "proj", Requester := "gitter_request", RevisionOrderNumber := 1,
        BuildId := "b9old", Version := "v9old" },
      { Id := "E1", Status := .undispatched, BuildVariant := "bv", DisplayName := "etask",
        Project := "proj", Requester := "gitter_request", RevisionOrderNumber := 2,
        BuildId := "b0", Version := "v0" }],
    builds := [{ Id := "b0", Status := .created, Version := "v0" }],
    versions := [{ Id := "v0", Status := .created, Requester := "gitter_request" }] }

/-- The first member of a two-member single-host task group: failed and
having requested a reset. -/
def groupG1 : Task :=
  { Id := "g1", Status := .failed, Activated := true, ResetWhenFinished := true,
    TaskGroup := "tg", TaskGroupMaxHosts := 1, TaskGroupOrder := 1,
    BuildId := "b8", Version := "v8", Requester := "gitter_request" }

/-- The second member of the group: succeeded, no reset request. -/
def groupG2 : Task :=
  { Id := "g2", Status := .succeeded, Activated := true,
    TaskGroup := "tg", TaskGroupMaxHosts := 1, TaskGroupOrder := 2,
    BuildId := "b8", Version := "v8", Requester := "gitter_request" }

/-- The world of the two-member group. -/
def groupWorld : World :=
  { tasks := [groupG1, groupG2],
    builds := [{ Id := "b8", Status := .started, Activated := true, Version := "v8" }],
    versions := [{ Id := "v8", Status := .started, Requester := "gitter_request" }] }

/-- The merge task of the first item of the three-item queue. -/
def mergeTaskX : Task :=
  { Id := "mX", Version := "v1", CommitQueueMerge := true, Requester := "merge_test" }

/-- The merge task of the second item, depending on the first's. -/
def mergeTaskY : Task :=
  { Id := "mY", Version := "v2", CommitQueueMerge := true, Requester := "merge_test",
    DependsOn := [{ TaskId := "mX", Status := .allStatuses }] }

/-- The merge task of the third item, depending on the second's. -/
def mergeTaskZ : Task :=
  { Id := "mZ", Version := "v3", CommitQueueMerge := true, Requester := "merge_test",
    DependsOn := [{ TaskId := "mY", Status := .allStatuses }] }

/-- A three-item commit queue's world, all items processing, each merge
task depending on the previous item's merge task. -/
def mergeChainWorld : World :=
  { tasks := [mergeTaskX, mergeTaskY, mergeTaskZ] }

/-- The queue of `mergeChainWorld`. -/
def mergeChainQueue : CommitQueue :=
  { ProjectID := "p",
    Queue := [{ Issue := "X", Version := "v1" }, { Issue := "Y", Version := "v2" },
      { Issue := "Z", Version := "v3" }] }

/-- An eligible previous run for stepback: unfinished, non-negative
priority, not activated, no dependencies and outside any display task
or task group. -/
def eligPrev : Task :=
  { Id := "P", Status := .undispatched, BuildVariant := "bv", DisplayName := "tname",
    Project := "proj", Requester := "gitter_request", RevisionOrderNumber := 3,
    BuildId := "bP", Version := "vP" }

/-- The failing task at revision order 4 whose previous run is
`eligPrev`. -/
def eligT : Task :=
  { Id := "T", Status := .failed, BuildVariant := "bv", DisplayName := "tname",
    Project := "proj", Requester := "gitter_request", RevisionOrderNumber := 4,
    BuildId := "bT", Version := "vT" }

/-- The build of `eligPrev`. -/
def eligB : Build := { Id := "bP", Status := .created, Version := "vP" }

/-- The (mainline) version of `eligPrev`. -/
def eligV : Version := { Id := "vP", Status := .created, Requester := "gitter_request" }

/-- The world of `eligT` and `eligPrev`. -/
def eligWorld : World :=
  { tasks := [eligT, eligPrev],
    builds := [eligB],
    versions := [eligV] }

/-- A failing task at revision order 4 whose previous run has already
finished. -/
def finishedStepTask : Task :=
  { Id := "FT", Status := .failed, BuildVariant := "bv", DisplayName := "tname",
    Project := "proj", Requester := "gitter_request", RevisionOrderNumber := 4 }

/-- The already-succeeded previous run of `finishedStepTask`:
non-negative priority, not activated. -/
def finishedPrev : Task :=
  { Id := "FP", Status := .succeeded, BuildVariant := "bv", DisplayName := "tname",
    Project := "proj", Requester := "gitter_request", RevisionOrderNumber := 3 }

/-- The world of `finishedStepTask` and `finishedPrev`. -/
def finishedStepWorld : World :=
  { tasks := [finishedStepTask, finishedPrev] }

/-- The signature of a task document tracked across the reset machinery:
execution number, status, activation, display-only flag and display-task
back-reference. -/
def taskSig (t : Task) : Nat × TaskStatus × Bool × Bool × String :=
  (t.Execution, t.Status, t.Activated, t.DisplayOnly, t.DisplayTaskId)

end Evergreen

deriving instance DecidableEq for Except

namespace Evergreen

/-! ## Helper lemmas -/

/-- The index-carrying scan of `FindItem` agrees with `findIdx?` started
at the same index. -/
theorem findItemGo_eq_findIdx (l : List CommitQueueItem) (s : String) :
    ∀ i, findItemGo l i s =
      match l.findIdx? (cqItemMatches s) i with
      | some j => (j : Int)
      | none => -1 := by
  induction l with
  | nil => intro i; rfl
  | cons q rest ih =>
    intro i
    simp only [findItemGo, List.findIdx?_cons, cqItemMatches]
    by_cases h : (q.Issue == s || q.Version == s || q.PatchId == s) = true
    · simp [h]
    · simp only [Bool.not_eq_true] at h
      simp [h, ih]

/-- `List.any` is invariant under permutation. -/
theorem any_of_perm {α : Type} {l l' : List α} (h : l.Perm l') (p : α → Bool) :
    l.any p = l'.any p := by
  cases hb : l'.any p with
  | false =>
    simp only [List.any_eq_false] at hb ⊢
    exact fun x hx => hb x (h.mem_iff.mp hx)
  | true =>
    simp only [List.any_eq_true] at hb ⊢
    obtain ⟨x, hx, hp⟩ := hb
    exact ⟨x, h.mem_iff.mpr hx, hp⟩

/-- `List.all` is invariant under permutation. -/
theorem all_of_perm {α : Type} {l l' : List α} (h : l.Perm l') (p : α → Bool) :
    l.all p = l'.all p := by
  cases hb : l'.all p with
  | false =>
    simp only [List.all_eq_false] at hb ⊢
    obtain ⟨x, hx, hp⟩ := hb
    exact ⟨x, h.mem_iff.mpr hx, hp⟩
  | true =>
    simp only [List.all_eq_true] at hb ⊢
    exact fun x hx => hb x (h.mem_iff.mp hx)

/-- The break-on-started loop of `getBuildStatus` computes "all tasks
un-started" and "all tasks un-started and blocked". -/
theorem buildStatusFlagsLoop_eq (l : List Task) :
    buildStatusFlagsLoop l =
      (l.all (fun t => IsUnstartedTaskStatus t.Status),
       l.all (fun t => IsUnstartedTaskStatus t.Status) && l.all (fun t => t.Blocked)) := by
  induction l with
  | nil => rfl
  | cons t rest ih =>
    simp only [buildStatusFlagsLoop, ih, List.all_cons]
    by_cases h : IsUnstartedTaskStatus t.Status = true
    · simp only [h, Bool.not_true, Bool.true_and]
      cases t.Blocked <;>
        cases rest.all (fun t => IsUnstartedTaskStatus t.Status) <;>
        cases rest.all (fun t => t.Blocked) <;> simp
    · simp only [Bool.not_eq_true] at h
      simp [h]

/-- Binding a successful `Except` computation just applies the
continuation. -/
theorem exc_bind_ok {α β : Type} (a : α) (f : α → Except String β) :
    (Except.ok a >>= f) = f a := rfl

/-- Looking a task up after an id-preserving update: the found document
is the updated one. -/
theorem findTask_updateTask (w : World) (a : String) (f : Task → Task)
    (hf : ∀ x, (f x).Id = x.Id) (j : String) :
    (w.updateTask a f).findTask j =
      (w.findTask j).map (fun x => if x.Id == a then f x else x) := by
  unfold World.findTask World.updateTask
  simp only [List.find?_map]
  have hp : ((fun t : Task => t.Id == j) ∘ fun t => if t.Id == a then f t else t) =
      (fun t : Task => t.Id == j) := by
    funext x
    by_cases h : x.Id = a
    · simp [h, hf]
    · simp [h]
  rw [hp]

theorem findTask_some_id {w : World} {j : String} {x : Task} (h : w.findTask j = some x) :
    x.Id = j := by
  have := List.find?_some h
  simpa using this

theorem findMergeTask_updateTask (w : World) (a : String) (f : Task → Task)
    (hcm : ∀ x, (f x).CommitQueueMerge = x.CommitQueueMerge)
    (hv : ∀ x, (f x).Version = x.Version) (v : String) :
    findMergeTaskForVersion (w.updateTask a f) v =
      (findMergeTaskForVersion w v).map (fun x => if x.Id == a then f x else x) := by
  unfold findMergeTaskForVersion World.updateTask
  simp only [List.find?_map]
  have hp : ((fun t : Task => t.CommitQueueMerge && t.Version == v) ∘
      fun t => if t.Id == a then f t else t) =
      (fun t : Task => t.CommitQueueMerge && t.Version == v) := by
    funext x
    by_cases h : x.Id = a
    · simp [h, hcm, hv]
    · simp [h]
  rw [hp]

theorem updateBuildStatus_frame (w : World) (b : Build) :
    (updateBuildStatus w b).2.1.tasks = w.tasks ∧
    (updateBuildStatus w b).2.1.versions = w.versions ∧
    (updateBuildStatus w b).2.1.patches = w.patches := by
  refine ⟨?_, ?_, ?_⟩ <;>
    (simp only [updateBuildStatus, updateBuildGithubStatus]
     repeat' split
     all_goals simp [buildSetAllTasksBlocked, buildSetAborted, buildMarkFinished,
       buildUpdateStatus, updateMakespans, World.updateBuild])

theorem updateVersionStatus_frame (w : World) (v : Version) :
    (updateVersionStatus w v).2.1.tasks = w.tasks ∧
    (updateVersionStatus w v).2.1.builds = w.builds ∧
    (updateVersionStatus w v).2.1.patches = w.patches := by
  refine ⟨?_, ?_, ?_⟩ <;>
    (simp only [updateVersionStatus, updateVersionGithubStatus]
     repeat' split
     all_goals simp [versionSetAborted, versionMarkFinished, versionUpdateStatus,
       World.updateVersion])

theorem findTask_congr {w w' : World} (h : w'.tasks = w.tasks) (j : String) :
    w'.findTask j = w.findTask j := by
  unfold World.findTask
  rw [h]

theorem findVersion_congr {w w' : World} (h : w'.versions = w.versions) (j : String) :
    w'.findVersion j = w.findVersion j := by
  unfold World.findVersion
  rw [h]

theorem ubvs_ok (w : World) (t : Task) (b : Build) (v : Version)
    (hb : w.findBuild t.BuildId = some b)
    (hv : w.findVersion t.Version = some v)
    (hreq : IsPatchRequester v.Requester = false) :
    ∃ w' evs, UpdateBuildAndVersionStatusForTask w t = .ok (w', evs) ∧ w'.tasks = w.tasks := by
  unfold UpdateBuildAndVersionStatusForTask
  split
  · rename_i hnone
    rw [hb] at hnone
    exact Option.noConfusion hnone
  · rename_i tb htb
    rw [hb] at htb
    injection htb with htb
    subst htb
    rcases hub : updateBuildStatus w b with ⟨changed, w1, evs1⟩
    have hfr := updateBuildStatus_frame w b
    rw [hub] at hfr
    simp only [hub]
    by_cases hc : changed = true
    · subst hc
      simp only [Bool.not_true, Bool.false_eq_true, if_false]
      have hv1 : w1.findVersion t.Version = some v := by
        rw [findVersion_congr hfr.2.1 t.Version]
        exact hv
      split
      · rename_i hnone
        rw [hv1] at hnone
        exact Option.noConfusion hnone
      · rename_i tv htv
        rw [hv1] at htv
        injection htv with htv
        subst htv
        rcases huv : updateVersionStatus w1 v with ⟨vs, w2, evs2⟩
        have hfr2 := updateVersionStatus_frame w1 v
        rw [huv] at hfr2
        simp only [huv, hreq, Bool.false_eq_true, if_false]
        exact ⟨w2, evs1 ++ [Ev.versionRead t.Version] ++ evs2, rfl,
          by rw [hfr2.1, hfr.1]⟩
    · have hc' : changed = false := by
        cases changed
        · rfl
        · exact absurd rfl hc
      subst hc'
      simp only [Bool.not_false, if_true]
      exact ⟨w1, evs1, rfl, hfr.1⟩

theorem findVersion_some_id {w : World} {j : String} {x : Version}
    (h : w.findVersion j = some x) : x.Id = j := by
  have := List.find?_some h
  simpa using this

theorem findVersion_updateVersion (w : World) (a : String) (f : Version → Version)
    (hf : ∀ x, (f x).Id = x.Id) (j : String) :
    (w.updateVersion a f).findVersion j =
      (w.findVersion j).map (fun x => if x.Id == a then f x else x) := by
  unfold World.findVersion World.updateVersion
  simp only [List.find?_map]
  have hp : ((fun v : Version => v.Id == j) ∘ fun v => if v.Id == a then f v else v) =
      (fun v : Version => v.Id == j) := by
    funext x
    by_cases h : x.Id = a
    · simp [h, hf]
    · simp [h]
  rw [hp]

theorem foldl_pickMax_mem :
    ∀ (l : List Task) (acc : Option Task) (x : Task),
      l.foldl (fun best p =>
          match best with
          | none => some p
          | some b => if p.RevisionOrderNumber > b.RevisionOrderNumber then some p
            else best) acc = some x →
      x ∈ l ∨ acc = some x := by
  intro l
  induction l with
  | nil => exact fun acc x h => Or.inr h
  | cons p rest ih =>
    intro acc x h
    simp only [List.foldl_cons] at h
    rcases ih _ x h with hmem | hacc
    · exact Or.inl (List.mem_cons_of_mem _ hmem)
    · cases acc with
      | none =>
        injection hacc with h2
        exact Or.inl (h2 ▸ List.mem_cons_self _ _)
      | some b =>
        by_cases hgt : p.RevisionOrderNumber > b.RevisionOrderNumber
        · simp only [if_pos hgt] at hacc
          injection hacc with h2
          exact Or.inl (h2 ▸ List.mem_cons_self _ _)
        · simp only [if_neg hgt] at hacc
          exact Or.inr hacc

theorem byBeforeRevision_mem {w : World} {ron : Nat} {bv dn pj rq : String} {prev : Task}
    (h : byBeforeRevision w ron bv dn pj rq = some prev) : prev ∈ w.tasks := by
  unfold byBeforeRevision at h
  rcases foldl_pickMax_mem _ _ _ h with hmem | hacc
  · exact List.mem_of_mem_filter hmem
  · exact Option.noConfusion hacc

theorem findTask_isSome_of_mem {w : World} {x : Task} (h : x ∈ w.tasks) :
    ∃ y, w.findTask x.Id = some y ∧ y.Id = x.Id := by
  unfold World.findTask
  cases hf : w.tasks.find? (fun t => t.Id == x.Id) with
  | none =>
    have := List.find?_eq_none.mp hf x h
    simp at this
  | some y =>
    have := List.find?_some hf
    exact ⟨y, rfl, by simpa using this⟩

theorem setActiveStateLoop_singleton (fuel : Nat) (caller : String) (w : World) (prev : Task)
    (hdisp : prev.DisplayOnly = false)
    (hdeps : getRecursiveDependenciesUp w [prev] = [])
    (hdt : prev.DispatchTime = 0)
    (hdtid : prev.DisplayTaskId = "") :
    setActiveStateLoop fuel caller true [prev] ⟨w, [], [], [], []⟩ =
      .ok ⟨w, [], [prev], [prev.Version], [(prev.BuildId, prev)]⟩ := by
  by_cases hod : prev.OverrideDependencies = true <;>
    by_cases hshg : prev.IsPartOfSingleHostTaskGroup = true <;>
      simp [setActiveStateLoop, hdisp, hdeps, hdt, hdtid, hod, hshg,
        insertNewString, Task.IsPartOfDisplay, sasDepsLoop, upsertBuildTask,
        Bind.bind, Except.bind]

theorem SetActiveState_activates_singleton (fuel : Nat) (w : World) (caller : String)
    (prev : Task) (b : Build) (v : Version)
    (hdisp : prev.DisplayOnly = false)
    (hdtid : prev.DisplayTaskId = "")
    (hdt : prev.DispatchTime = 0)
    (hdeps : getRecursiveDependenciesUp w [prev] = [])
    (hb : w.findBuild prev.BuildId = some b)
    (hv : w.findVersion prev.Version = some v)
    (hreq : IsPatchRequester v.Requester = false)
    (hmem : prev ∈ w.tasks) :
    ∃ w' evs, SetActiveState fuel w caller true [prev] = .ok (w', evs) ∧
      (w'.findTask prev.Id).map (fun x => x.Activated) = some true := by
  have hloop := setActiveStateLoop_singleton fuel caller w prev hdisp hdeps hdt hdtid
  have hv1 : ((w.updateTask prev.Id
        (fun x => { x with Activated := true, ActivatedBy := caller })).updateVersion
          prev.Version (fun x => { x with Activated := true })).findVersion prev.Version =
      some { v with Activated := true } := by
    rw [findVersion_updateVersion _ prev.Version
      (fun x => { x with Activated := true }) (fun x => rfl) prev.Version]
    have hwa : (w.updateTask prev.Id
        (fun x => { x with Activated := true, ActivatedBy := caller })).findVersion
          prev.Version = some v := hv
    rw [hwa]
    have hid : v.Id = prev.Version := findVersion_some_id hv
    simp [hid]
  have hb1 : ((w.updateTask prev.Id
        (fun x => { x with Activated := true, ActivatedBy := caller })).updateVersion
          prev.Version (fun x => { x with Activated := true })).findBuild prev.BuildId =
      some b := hb
  obtain ⟨w3, evs3, hub, htasks⟩ := ubvs_ok _ prev b { v with Activated := true } hb1 hv1 hreq
  refine ⟨w3, [Ev.taskActivated prev.Id caller] ++ [Ev.versionsActivated [prev.Version]] ++
    (evs3 ++ []), ?_, ?_⟩
  · unfold SetActiveState
    rw [hloop]
    show (do
      let (w2, evs2) ← ubvsLoop ((w.updateTask prev.Id
        (fun x => { x with Activated := true, ActivatedBy := caller })).updateVersion
          prev.Version (fun x => { x with Activated := true })) [(prev.BuildId, prev)]
      Except.ok (w2, ([] : List Ev) ++
        ([Ev.taskActivated prev.Id caller] ++ [Ev.versionsActivated [prev.Version]]) ++
        evs2)) = _
    simp only [ubvsLoop, hub, Bind.bind, Except.bind]
    simp
  · rw [findTask_congr htasks prev.Id]
    have hft : ((w.updateTask prev.Id
        (fun x => { x with Activated := true, ActivatedBy := caller })).updateVersion
          prev.Version (fun x => { x with Activated := true })).findTask prev.Id =
        (w.updateTask prev.Id
          (fun x => { x with Activated := true, ActivatedBy := caller })).findTask
            prev.Id := rfl
    rw [hft, findTask_updateTask w prev.Id
      (fun x => { x with Activated := true, ActivatedBy := caller }) (fun x => rfl) prev.Id]
    obtain ⟨y, hy, hyid⟩ := findTask_isSome_of_mem hmem
    rw [hy]
    simp [hyid]

theorem findTask_mapSig (w : World) (f : Task → Task)
    (hf : ∀ x, (f x).Id = x.Id)
    (hsig : ∀ x, taskSig (f x) = taskSig x) (j : String) :
    (World.findTask { w with tasks := w.tasks.map f } j).map taskSig =
      (w.findTask j).map taskSig := by
  unfold World.findTask
  simp only [List.find?_map]
  have hp : ((fun t : Task => t.Id == j) ∘ f) = (fun t : Task => t.Id == j) := by
    funext x
    simp [hf]
  rw [hp]
  cases w.tasks.find? (fun t => t.Id == j) with
  | none => rfl
  | some y => simp [hsig]

theorem findTask_updateTask_sig (w : World) (a : String) (g : Task → Task)
    (hf : ∀ x, (g x).Id = x.Id) (hsig : ∀ x, taskSig (g x) = taskSig x) (j : String) :
    ((w.updateTask a g).findTask j).map taskSig = (w.findTask j).map taskSig := by
  have hw : w.updateTask a g =
      { w with tasks := w.tasks.map (fun t => if t.Id == a then g t else t) } := rfl
  rw [hw]
  refine findTask_mapSig w _ (fun x => ?_) (fun x => ?_) j
  · by_cases h : x.Id = a <;> simp [h, hf]
  · by_cases h : x.Id = a <;> simp [h, hsig]

theorem findTask_updateTask_ne (w : World) (a : String) (g : Task → Task)
    (hf : ∀ x, (g x).Id = x.Id) (j : String) (hne : j ≠ a) :
    (w.updateTask a g).findTask j = w.findTask j := by
  rw [findTask_updateTask w a g hf j]
  cases hy : w.findTask j with
  | none => rfl
  | some y =>
    have hid : y.Id = j := findTask_some_id hy
    simp [hid, hne]

theorem markDependenciesFinished_sig (w : World) (a : String) (v : Bool) (j : String) :
    (((markDependenciesFinished w a v).1).findTask j).map taskSig =
      (w.findTask j).map taskSig := by
  have hw : (markDependenciesFinished w a v).1 =
      { w with tasks := w.tasks.map (fun t =>
          { t with DependsOn := t.DependsOn.map (fun d =>
              if d.TaskId == a then { d with Finished := v } else d) }) } := rfl
  rw [hw]
  exact findTask_mapSig w (fun t =>
      { t with DependsOn := t.DependsOn.map (fun d =>
          if d.TaskId == a then { d with Finished := v } else d) })
    (fun x => rfl) (fun x => rfl) j

theorem markUnattainableDependency_sig (w : World) (a b : String) (v : Bool) (j : String) :
    (((markUnattainableDependency w a b v).1).findTask j).map taskSig =
      (w.findTask j).map taskSig := by
  exact findTask_updateTask_sig w a (fun t =>
      { t with DependsOn := t.DependsOn.map (fun d =>
          if d.TaskId == b then { d with Unattainable := v } else d) })
    (fun x => rfl) (fun x => rfl) j

theorem exc_bind_ok_inv {α β : Type} {x : Except String α} {f : α → Except String β} {b : β}
    (h : (x >>= f) = .ok b) : ∃ a, x = .ok a ∧ f a = .ok b := by
  cases x with
  | error e => simp [Bind.bind, Except.bind] at h
  | ok a => exact ⟨a, rfl, by simpa [Bind.bind, Except.bind] using h⟩

theorem uudf_sig (fuel : Nat) :
    ∀ (w : World) (srcId : String) (ts : List Task) (w' : World) (evs : List Ev),
      updateUnblockedDependenciesFrom fuel w srcId ts = .ok (w', evs) →
      ∀ j, (w'.findTask j).map taskSig = (w.findTask j).map taskSig := by
  induction fuel with
  | zero =>
    intro w srcId ts w' evs h j
    cases ts with
    | nil =>
      simp only [updateUnblockedDependenciesFrom] at h
      injection h with h
      injection h with h1 h2
      rw [← h1]
    | cons a rest => exact Except.noConfusion h
  | succ fuel ih =>
    intro w srcId ts w' evs h j
    cases ts with
    | nil =>
      simp only [updateUnblockedDependenciesFrom] at h
      injection h with h
      injection h with h1 h2
      rw [← h1]
    | cons a rest =>
      simp only [updateUnblockedDependenciesFrom] at h
      rcases hm : markUnattainableDependency w a.Id srcId false with ⟨w1, evs1⟩
      simp only [hm] at h
      obtain ⟨p2, h2, h⟩ := exc_bind_ok_inv h
      rcases p2 with ⟨w2, evs2⟩
      obtain ⟨p3, h3, h⟩ := exc_bind_ok_inv h
      rcases p3 with ⟨w3, evs3⟩
      injection h with h
      injection h with h1 h2'
      rw [← h1]
      calc (w3.findTask j).map taskSig
          = (w2.findTask j).map taskSig := ih _ _ _ _ _ h3 j
        _ = (w1.findTask j).map taskSig := ih _ _ _ _ _ h2 j
        _ = (w.findTask j).map taskSig := by
            have hms := markUnattainableDependency_sig w a.Id srcId false j
            rw [hm] at hms
            exact hms

theorem updatePatchStatus_frame (w : World) (p : Patch) (vs : VersionStatus) :
    (UpdatePatchStatus w p vs).1.tasks = w.tasks ∧
    (UpdatePatchStatus w p vs).1.builds = w.builds ∧
    (UpdatePatchStatus w p vs).1.versions = w.versions := by
  refine ⟨?_, ?_, ?_⟩ <;>
    (simp only [UpdatePatchStatus]
     repeat' split
     all_goals simp [patchMarkFinished, patchUpdateStatus, World.updatePatch])

theorem ubvs_tasks {w : World} {t : Task} {w' : World} {evs : List Ev}
    (h : UpdateBuildAndVersionStatusForTask w t = .ok (w', evs)) : w'.tasks = w.tasks := by
  unfold UpdateBuildAndVersionStatusForTask at h
  split at h
  · exact Except.noConfusion h
  rename_i b hfb
  split at h
  rename_i changed w1 evs1 hub
  have hfr := updateBuildStatus_frame w b
  rw [hub] at hfr
  split at h
  · injection h with h
    injection h with h1 h2
    rw [← h1]
    exact hfr.1
  · split at h
    · exact Except.noConfusion h
    rename_i v hfv
    split at h
    rename_i vs w2 evs2 huv
    have hfr2 := updateVersionStatus_frame w1 v
    rw [huv] at hfr2
    split at h
    · split at h
      · exact Except.noConfusion h
      rename_i p hfp
      split at h
      rename_i w3 evs3 hps
      have hfr3 := updatePatchStatus_frame w2 p vs
      rw [hps] at hfr3
      injection h with h
      injection h with h1 h2
      rw [← h1]
      rw [hfr3.1, hfr2.1, hfr.1]
    · injection h with h
      injection h with h1 h2
      rw [← h1]
      rw [hfr2.1, hfr.1]

theorem resetTask_sig (fuel : Nat) (w : World) (id caller : String) (t : Task)
    (w' : World) (evs : List Ev)
    (ht : w.findTask id = some t) (hdo : t.DisplayOnly = false)
    (h : resetTask fuel w id caller = .ok (w', evs)) :
    (w'.findTask id).map taskSig =
      some (t.Execution + 1, TaskStatus.undispatched, true, t.DisplayOnly, t.DisplayTaskId) ∧
    ∀ j, j ≠ id → (w'.findTask j).map taskSig = (w.findTask j).map taskSig := by
  have hid : t.Id = id := findTask_some_id ht
  unfold resetTask at h
  split at h
  · exact Except.noConfusion h
  rename_i t0 ht0
  rw [ht] at ht0
  injection ht0 with ht0
  subst ht0
  split at h
  · exact Except.noConfusion h
  simp only [taskArchive] at h
  obtain ⟨p2, h2, h⟩ := exc_bind_ok_inv h
  rcases p2 with ⟨w2, evs2⟩
  simp only [taskActivate] at h
  obtain ⟨p4, h4, h⟩ := exc_bind_ok_inv h
  rcases p4 with ⟨w4, evs4⟩
  injection h with h
  injection h with hW hE
  subst hW
  unfold MarkOneTaskReset at h2
  simp only [hdo, Bool.false_eq_true, if_false, Bind.bind, Except.bind, taskReset] at h2
  obtain ⟨p3, h3, h2⟩ := exc_bind_ok_inv h2
  rcases p3 with ⟨w3, evs3⟩
  rcases hmd : markDependenciesFinished w3 t.Id false with ⟨wmd, evsmd⟩
  simp only [hmd] at h2
  injection h2 with h2
  injection h2 with hW2 hE2
  unfold UpdateUnblockedDependencies at h3
  have husig := uudf_sig fuel _ _ _ _ _ h3
  have hmdsig : ∀ j, (wmd.findTask j).map taskSig = (w3.findTask j).map taskSig := by
    intro j
    have := markDependenciesFinished_sig w3 t.Id false j
    rw [hmd] at this
    exact this
  subst hW2
  have hfrU := ubvs_tasks h4
  constructor
  · rw [findTask_congr hfrU id,
      findTask_updateTask wmd t.Id
        (fun x => { x with Activated := true, ActivatedBy := caller }) (fun x => rfl) id]
    have hbase : ((World.updateTask w t.Id (fun x => { x with
        Activated := true, Status := TaskStatus.undispatched, Execution := x.Execution + 1,
        Aborted := false, Details := none, ResetWhenFinished := false,
        DispatchTime := 0, StartTime := 0, FinishTime := 0 })).findTask id).map taskSig =
        some (t.Execution + 1, TaskStatus.undispatched, true, t.DisplayOnly,
          t.DisplayTaskId) := by
      rw [findTask_updateTask w t.Id (fun x => { x with
        Activated := true, Status := TaskStatus.undispatched, Execution := x.Execution + 1,
        Aborted := false, Details := none, ResetWhenFinished := false,
        DispatchTime := 0, StartTime := 0, FinishTime := 0 }) (fun x => rfl) id, ht]
      simp [hid, taskSig]
    have hsig2 : (wmd.findTask id).map taskSig =
        some (t.Execution + 1, TaskStatus.undispatched, true, t.DisplayOnly,
          t.DisplayTaskId) := by
      rw [hmdsig id, husig id]
      exact hbase
    cases hy : wmd.findTask id with
    | none =>
      rw [hy] at hsig2
      exact Option.noConfusion hsig2
    | some y =>
      rw [hy] at hsig2
      injection hsig2 with hsig2
      have hyid : y.Id = id := findTask_some_id hy
      simp only [taskSig, Prod.mk.injEq] at hsig2
      simp [hyid, hid, taskSig, hsig2.1, hsig2.2.1, hsig2.2.2.2.1, hsig2.2.2.2.2]
  · intro j hj
    rw [findTask_congr hfrU j,
      findTask_updateTask_ne wmd t.Id
        (fun x => { x with Activated := true, ActivatedBy := caller }) (fun x => rfl) j
        (hid ▸ hj),
      hmdsig j, husig j,
      findTask_updateTask_ne w t.Id (fun x => { x with
        Activated := true, Status := TaskStatus.undispatched, Execution := x.Execution + 1,
        Aborted := false, Details := none, ResetWhenFinished := false,
        DispatchTime := 0, StartTime := 0, FinishTime := 0 }) (fun x => rfl) j (hid ▸ hj)]

theorem resetManyTasks_presig (fuel : Nat) :
    ∀ (ts : List Task) (w : World) (caller : String) (w' : World) (evs : List Ev),
      resetManyTasks fuel w ts caller = .ok (w', evs) →
      (∀ x ∈ ts, ∃ d, w.findTask x.Id = some d ∧ d.DisplayOnly = false) →
      ∀ j, j ∉ ts.map (fun x => x.Id) →
        (w'.findTask j).map taskSig = (w.findTask j).map taskSig := by
  intro ts
  induction ts with
  | nil =>
    intro w caller w' evs h hdocs j hj
    simp only [resetManyTasks] at h
    injection h with h
    injection h with h1 h2
    rw [← h1]
  | cons a rest ih =>
    intro w caller w' evs h hdocs j hj
    simp only [resetManyTasks] at h
    obtain ⟨p1, h1, h⟩ := exc_bind_ok_inv h
    rcases p1 with ⟨w1, evs1⟩
    obtain ⟨p2, h2, h⟩ := exc_bind_ok_inv h
    rcases p2 with ⟨w2, evs2⟩
    injection h with h
    injection h with hW hE
    subst hW
    obtain ⟨d, hd, hddo⟩ := hdocs a (List.mem_cons_self a rest)
    obtain ⟨hself, hother⟩ := resetTask_sig fuel w a.Id caller d w1 evs1 hd hddo h1
    have hj1 : j ≠ a.Id := by
      intro he
      exact hj (by simp [he])
    have hjrest : j ∉ rest.map (fun x => x.Id) := by
      intro he
      exact hj (by simp [he])
    have hdocs1 : ∀ x ∈ rest, ∃ d1, w1.findTask x.Id = some d1 ∧ d1.DisplayOnly = false := by
      intro x hx
      by_cases hxa : x.Id = a.Id
      · rw [hxa]
        cases hy : w1.findTask a.Id with
        | none =>
          rw [hy] at hself
          exact Option.noConfusion hself
        | some y =>
          rw [hy] at hself
          injection hself with hself
          refine ⟨y, rfl, ?_⟩
          have : y.DisplayOnly = d.DisplayOnly := by
            have := congrArg (fun s => s.2.2.2.1) hself
            simpa [taskSig] using this
          rw [this, hddo]
      · obtain ⟨d0, hd0, hd0do⟩ := hdocs x (List.mem_cons_of_mem a hx)
        have hpres := hother x.Id hxa
        rw [hd0] at hpres
        cases hy : w1.findTask x.Id with
        | none =>
          rw [hy] at hpres
          exact Option.noConfusion hpres
        | some y =>
          rw [hy] at hpres
          injection hpres with hpres
          refine ⟨y, rfl, ?_⟩
          have : y.DisplayOnly = d0.DisplayOnly := by
            have := congrArg (fun s => s.2.2.2.1) hpres
            simpa [taskSig] using this
          rw [this, hd0do]
    calc (w2.findTask j).map taskSig
        = (w1.findTask j).map taskSig := ih w1 caller w2 evs2 h2 hdocs1 j hjrest
      _ = (w.findTask j).map taskSig := hother j hj1

theorem resetManyTasks_sig (fuel : Nat) :
    ∀ (ts : List Task) (w : World) (caller : String) (w' : World) (evs : List Ev),
      resetManyTasks fuel w ts caller = .ok (w', evs) →
      (∀ x ∈ ts, (w.findTask x.Id).map taskSig =
        some (x.Execution, x.Status, x.Activated, x.DisplayOnly, x.DisplayTaskId)) →
      (∀ x ∈ ts, x.DisplayOnly = false) →
      (ts.map (fun x => x.Id)).Nodup →
      ∀ x ∈ ts, (w'.findTask x.Id).map taskSig =
        some (x.Execution + 1, TaskStatus.undispatched, true, x.DisplayOnly,
          x.DisplayTaskId) := by
  intro ts
  induction ts with
  | nil =>
    intro w caller w' evs h hdocs hdo hnd x hx
    cases hx
  | cons a rest ih =>
    intro w caller w' evs h hdocs hdo hnd x hx
    simp only [resetManyTasks] at h
    obtain ⟨p1, h1, h⟩ := exc_bind_ok_inv h
    rcases p1 with ⟨w1, evs1⟩
    obtain ⟨p2, h2, h⟩ := exc_bind_ok_inv h
    rcases p2 with ⟨w2, evs2⟩
    injection h with h
    injection h with hW hE
    subst hW
    have hda := hdocs a (List.mem_cons_self a rest)
    obtain ⟨d, hd, hdsig⟩ : ∃ d, w.findTask a.Id = some d ∧ taskSig d =
        (a.Execution, a.Status, a.Activated, a.DisplayOnly, a.DisplayTaskId) := by
      cases hy : w.findTask a.Id with
      | none =>
        rw [hy] at hda
        exact Option.noConfusion hda
      | some y =>
        rw [hy] at hda
        injection hda with hda
        exact ⟨y, rfl, hda⟩
    have hddo : d.DisplayOnly = false := by
      have := congrArg (fun s => s.2.2.2.1) hdsig
      simp [taskSig] at this
      rw [this]
      exact hdo a (List.mem_cons_self a rest)
    obtain ⟨hself, hother⟩ := resetTask_sig fuel w a.Id caller d w1 evs1 hd hddo h1
    have hnd' := hnd
    simp only [List.map_cons, List.nodup_cons] at hnd'
    rcases List.mem_cons.mp hx with hxa | hxrest
    · subst hxa
      have hpres := resetManyTasks_presig fuel rest w1 caller w2 evs2 h2 (by
        intro y hy
        by_cases hya : y.Id = x.Id
        · rw [hya]
          cases hz : w1.findTask x.Id with
          | none =>
            rw [hz] at hself
            exact Option.noConfusion hself
          | some z =>
            rw [hz] at hself
            injection hself with hself
            refine ⟨z, rfl, ?_⟩
            have : z.DisplayOnly = d.DisplayOnly := by
              have := congrArg (fun s => s.2.2.2.1) hself
              simpa [taskSig] using this
            rw [this, hddo]
        · have hpry := hother y.Id hya
          have hdy := hdocs y (List.mem_cons_of_mem x hy)
          rw [hdy] at hpry
          cases hz : w1.findTask y.Id with
          | none =>
            rw [hz] at hpry
            exact Option.noConfusion hpry
          | some z =>
            rw [hz] at hpry
            injection hpry with hpry
            refine ⟨z, rfl, ?_⟩
            have : z.DisplayOnly = y.DisplayOnly := by
              have := congrArg (fun s => s.2.2.2.1) hpry
              simpa [taskSig] using this
            rw [this]
            exact hdo y (List.mem_cons_of_mem x hy))
        x.Id hnd'.1
      rw [hpres, hself]
      have h1e : d.Execution = x.Execution := by
        have := congrArg (fun s => s.1) hdsig
        simpa [taskSig] using this
      have h4e : d.DisplayOnly = x.DisplayOnly := by
        have := congrArg (fun s => s.2.2.2.1) hdsig
        simpa [taskSig] using this
      have h5e : d.DisplayTaskId = x.DisplayTaskId := by
        have := congrArg (fun s => s.2.2.2.2) hdsig
        simpa [taskSig] using this
      rw [h1e, h4e, h5e]
    · refine ih w1 caller w2 evs2 h2 ?_ (fun y hy => hdo y (List.mem_cons_of_mem a hy))
        hnd'.2 x hxrest
      intro y hy
      have hyne : y.Id ≠ a.Id := by
        intro he
        exact hnd'.1 (he ▸ List.mem_map_of_mem (fun z => z.Id) hy)
      rw [hother y.Id hyne]
      exact hdocs y (List.mem_cons_of_mem a hy)

theorem checkResetScan_none_of_mem :
    ∀ (ts : List Task) (x : Task), x ∈ ts →
      (!x.IsFinished && !x.Blocked && x.Activated) = true →
      ∀ sr, checkResetScan ts sr = none := by
  intro ts
  induction ts with
  | nil =>
    intro x hx
    cases hx
  | cons a rest ih =>
    intro x hx hc sr
    simp only [checkResetScan]
    by_cases ha : (!a.IsFinished && !a.Blocked && a.Activated) = true
    · simp [ha]
    · rcases List.mem_cons.mp hx with rfl | hmem
      · exact absurd hc ha
      · rw [if_neg ha]
        exact ih x hmem hc _

theorem checkResetScan_some :
    ∀ (ts : List Task) (sr : Bool),
      (∀ x ∈ ts, (!x.IsFinished && !x.Blocked && x.Activated) = false) →
      checkResetScan ts sr = some (sr || ts.any (fun x => x.ResetWhenFinished)) := by
  intro ts
  induction ts with
  | nil =>
    intro sr h
    simp [checkResetScan]
  | cons a rest ih =>
    intro sr h
    simp only [checkResetScan]
    have ha := h a (List.mem_cons_self a rest)
    rw [if_neg (by simp [ha])]
    rw [ih _ (fun x hx => h x (List.mem_cons_of_mem a hx))]
    simp [Bool.or_assoc]

/-! ## Claim theorems -/

/-- Claim C10 (confirmed): `FindItem(s)` returns the index of the first
entry whose issue, version id or patch id equals `s` (`-1` when none
matches); consequently `Enqueue` and `EnqueueAtFront` reject an item
whenever some entry matches its issue under that three-field
disjunction, returning the matching position, and `Remove` deletes the
first three-field match. -/
theorem findItem_three_fields :
    (∀ (q : CommitQueue) (s : String),
      q.FindItem s =
        match q.Queue.findIdx? (cqItemMatches s) with
        | some i => (i : Int)
        | none => -1) ∧
    (∀ (q : CommitQueue) (now : Nat) (item : CommitQueueItem),
      q.Queue.any (cqItemMatches item.Issue) = true →
        q.Enqueue now item = (q, q.FindItem item.Issue, some "item already in queue")) ∧
    (∀ (q : CommitQueue) (now : Nat) (item : CommitQueueItem),
      q.Queue.any (cqItemMatches item.Issue) = true →
        q.EnqueueAtFront now item =
          (q, q.FindItem item.Issue, some "item already in queue")) ∧
    (∀ (q : CommitQueue) (s : String) (i : Nat),
      q.Queue.findIdx? (cqItemMatches s) = some i →
        q.Remove s =
          ({ q with Queue := q.Queue.take i ++ q.Queue.drop (i + 1) }, q.Queue.get? i)) := by
  have hchar : ∀ (q : CommitQueue) (s : String),
      q.FindItem s =
        match q.Queue.findIdx? (cqItemMatches s) with
        | some i => (i : Int)
        | none => -1 :=
    fun q s => findItemGo_eq_findIdx q.Queue s 0
  have hpos : ∀ (q : CommitQueue) (s : String) (i : Nat),
      q.Queue.findIdx? (cqItemMatches s) = some i → q.FindItem s = (i : Int) := by
    intro q s i hi
    rw [hchar, hi]
  have hsome : ∀ (q : CommitQueue) (s : String),
      q.Queue.any (cqItemMatches s) = true →
        ∃ i, q.Queue.findIdx? (cqItemMatches s) = some i := by
    intro q s h
    have : (q.Queue.findIdx? (cqItemMatches s)).isSome = true := by
      rw [List.findIdx?_isSome]; exact h
    exact Option.isSome_iff_exists.mp this
  refine ⟨hchar, ?_, ?_, ?_⟩
  · intro q now item h
    obtain ⟨i, hi⟩ := hsome q item.Issue h
    have hp := hpos q item.Issue i hi
    unfold CommitQueue.Enqueue
    rw [hp]
    simp [Int.natCast_nonneg]
  · intro q now item h
    obtain ⟨i, hi⟩ := hsome q item.Issue h
    have hp := hpos q item.Issue i hi
    unfold CommitQueue.EnqueueAtFront
    rw [hp]
    simp [Int.natCast_nonneg]
  · intro q s i hi
    have hp := hpos q s i hi
    have hlt : i < q.Queue.length :=
      (List.findIdx?_eq_some_iff_findIdx_eq.mp hi).1
    unfold CommitQueue.Remove
    rw [hp]
    have hnlt : ¬((i : Int) < 0) := by omega
    simp only [hnlt, if_false, Int.toNat_natCast]
    have hg : q.Queue.get? i = some (q.Queue.get ⟨i, hlt⟩) := List.get?_eq_get hlt
    rw [hg]

/-- Claim C10 witness: the entry with version id `123` (and a different
issue) is found at index 0, makes `Enqueue` reject and is the one
`Remove` deletes. -/
theorem findItem_three_fields_witness :
    versionMatchQueue.FindItem "123" = 0 ∧
    versionMatchQueue.Queue.all (fun e => !(e.Issue == "123")) = true ∧
    versionMatchQueue.Enqueue 7 { Issue := "123" } =
      (versionMatchQueue, 0, some "item already in queue") ∧
    versionMatchQueue.Remove "123" =
      ({ ProjectID := "p", Queue := [] }, some { Issue := "A", Version := "123" }) := by
  refine ⟨by decide, by decide, ?_, ?_⟩
  · have h := findItem_three_fields.2.1 versionMatchQueue 7 { Issue := "123" } (by decide)
    rw [h]; decide
  · have h := findItem_three_fields.2.2.2 versionMatchQueue "123" 0 (by decide)
    rw [h]; decide

/-- Claim C5 counterexample: on a queue whose only entry has issue `A`
and patch id `123`, no entry's issue equals `123`, yet
`Enqueue({issue:"123"})` does not append — it returns position 0 and
the duplicate error, leaving the queue unchanged. -/
theorem enqueue_issue_only_counterexample :
    patchMatchQueue.Queue.all (fun e => !(e.Issue == "123")) = true ∧
    patchMatchQueue.Enqueue 9 { Issue := "123" } =
      (patchMatchQueue, 0, some "item already in queue") := by decide

/-- Claim C5 (corrected): `Enqueue` rejects with the existing position
and the error "item already in queue", leaving the queue unchanged,
when some entry's issue, version id or patch id equals the item's
issue; otherwise it appends the item at the tail with its enqueue time
stamped to the current time and returns the new last position with no
error. -/
theorem enqueue_duplicate_guard (q : CommitQueue) (now : Nat) (item : CommitQueueItem) :
    (q.Queue.any (cqItemMatches item.Issue) = true →
      q.Enqueue now item = (q, q.FindItem item.Issue, some "item already in queue")) ∧
    (q.Queue.any (cqItemMatches item.Issue) = false →
      q.Enqueue now item =
        ({ q with Queue := q.Queue ++ [{ item with EnqueueTime := now }] },
         (q.Queue.length : Int), none)) := by
  constructor
  · intro h
    have hs : (q.Queue.findIdx? (cqItemMatches item.Issue)).isSome = true := by
      rw [List.findIdx?_isSome]; exact h
    obtain ⟨i, hi⟩ := Option.isSome_iff_exists.mp hs
    have hp : q.FindItem item.Issue = (i : Int) := by
      have hgo := findItemGo_eq_findIdx q.Queue item.Issue 0
      rw [hi] at hgo
      exact hgo
    unfold CommitQueue.Enqueue
    rw [hp]
    simp [Int.natCast_nonneg]
  · intro h
    have hn : q.Queue.findIdx? (cqItemMatches item.Issue) = none := by
      have : (q.Queue.findIdx? (cqItemMatches item.Issue)).isSome = false := by
        rw [List.findIdx?_isSome]; exact h
      exact Option.not_isSome_iff_eq_none.mp (by simp [this])
    have hp : q.FindItem item.Issue = -1 := by
      have hgo := findItemGo_eq_findIdx q.Queue item.Issue 0
      rw [hn] at hgo
      exact hgo
    unfold CommitQueue.Enqueue
    rw [hp]
    norm_num [List.length_append]

/-- Claim C5 witness: the claim's scenario — on the empty queue,
`Enqueue({issue:"123"})` appends at position 0 with no error, and a
second identical `Enqueue` returns `(0, error)` with the queue
unchanged. -/
theorem enqueue_duplicate_guard_witness :
    (CommitQueue.mk "p" []).Enqueue 5 { Issue := "123" } =
      ({ ProjectID := "p", Queue := [{ Issue := "123", EnqueueTime := 5 }] }, 0, none) ∧
    ({ ProjectID := "p", Queue := [{ Issue := "123", EnqueueTime := 5 }] } :
        CommitQueue).Enqueue 6 { Issue := "123" } =
      ({ ProjectID := "p", Queue := [{ Issue := "123", EnqueueTime := 5 }] }, 0,
        some "item already in queue") := by
  constructor
  · have h := (enqueue_duplicate_guard (CommitQueue.mk "p" []) 5 { Issue := "123" }).2
      (by decide)
    rw [h]; decide
  · have h := (enqueue_duplicate_guard
      { ProjectID := "p", Queue := [{ Issue := "123", EnqueueTime := 5 }] } 6
      { Issue := "123" }).1 (by decide)
    rw [h]; decide

/-- Claim C2 counterexample: a list whose single task is started yet
blocked — every task of the list is blocked, but `getBuildStatus`
returns `started`, not `created` as the claim's first rule demands. -/
theorem getBuildStatus_blocked_started_counterexample :
    ([startedBlockedTask].all (fun t => t.Blocked)) = true ∧
    (getBuildStatus [startedBlockedTask]).1 = .started ∧
    BuildStatus.started ≠ BuildStatus.created := by decide

/-- Claim C2 (corrected): `getBuildStatus` returns exactly one of the
four build statuses by the fixed priority order — `created` exactly
when no task has left an un-started status (the "every task is blocked"
disjunct only reports the all-blocked flag, which is all-un-started and
all-blocked); else `started` when some task is started or some
activated task is unblocked and unfinished; else `failed` when some
task has a failing status or is aborted; else `succeeded` — and the
result is the same for every permutation of the task list. -/
theorem getBuildStatus_priority_order (l l' : List Task) (hperm : l.Perm l') :
    (getBuildStatus l).1 = buildStatusSpec l ∧
    (getBuildStatus l).2 =
      (l.all (fun t => IsUnstartedTaskStatus t.Status) && l.all (fun t => t.Blocked)) ∧
    getBuildStatus l = getBuildStatus l' := by
  have habs : ∀ a b : Bool, (a || (a && b)) = a := by decide
  have h1 := all_of_perm hperm (fun t => IsUnstartedTaskStatus t.Status)
  have h2 := all_of_perm hperm (fun t => t.Blocked)
  have h3 := any_of_perm hperm
    (fun t => t.Status == TaskStatus.started || (t.Activated && !t.Blocked && !t.IsFinished))
  have h4 := any_of_perm hperm (fun t => IsFailedTaskStatus t.Status || t.Aborted)
  refine ⟨?_, ?_, ?_⟩
  · simp only [getBuildStatus, buildStatusFlagsLoop_eq, buildStatusSpec, habs]
    cases ha : l.all (fun t => IsUnstartedTaskStatus t.Status) <;>
      cases hb : l.any (fun t => t.Status == TaskStatus.started ||
        (t.Activated && !t.Blocked && !t.IsFinished)) <;>
      cases hc : l.any (fun t => IsFailedTaskStatus t.Status || t.Aborted) <;>
      simp [ha, hb, hc]
  · simp only [getBuildStatus, buildStatusFlagsLoop_eq, habs]
    cases ha : l.all (fun t => IsUnstartedTaskStatus t.Status) <;>
      cases hb : l.any (fun t => t.Status == TaskStatus.started ||
        (t.Activated && !t.Blocked && !t.IsFinished)) <;>
      cases hc : l.any (fun t => IsFailedTaskStatus t.Status || t.Aborted) <;>
      simp [ha, hb, hc]
  · simp only [getBuildStatus, buildStatusFlagsLoop_eq, h1, h2, h3, h4]

/-- Claim C2 witness: concrete lists exercising the priority order and
permutation invariance. -/
theorem getBuildStatus_priority_order_witness :
    getBuildStatus [startedBlockedTask, succeededTask] =
      getBuildStatus [succeededTask, startedBlockedTask] ∧
    (getBuildStatus [startedBlockedTask, succeededTask]).1 =
      buildStatusSpec [startedBlockedTask, succeededTask] := by
  have h := getBuildStatus_priority_order [startedBlockedTask, succeededTask]
    [succeededTask, startedBlockedTask] (List.Perm.swap _ _ _)
  exact ⟨h.2.2, h.1⟩

/-- Claim C3 counterexample: in the chain A ← B ← C where C's required
status on B is the wildcard `AllStatuses`, A's failure does not satisfy
B's requirement, yet `UpdateBlockedDependencies(A)` marks only B's edge
— C's edge is not marked and C does not become blocked, against the
claim's unconditional transitivity. -/
theorem blocking_transitivity_wildcard_counterexample :
    depStatusSatisfied .failed (.status .succeeded) = false ∧
    ((UpdateBlockedDependencies 9 (chainWorld .failed (.status .succeeded) .allStatuses)
        (chainTaskA .failed)).map
      (fun p => p.1.tasks.map (fun t => t.Blocked))) = .ok [false, true, false] := by decide

/-- Claim C3 (corrected): for the chain A ← B ← C, when A's finishing
status does not satisfy B's required status and B's un-started status
does not satisfy C's required status (as with any requirement of a
concrete finished status), `UpdateBlockedDependencies(A)` marks B's
edge on A and, transitively, C's edge on B unattainable, making both
blocked; and `UpdateUnblockedDependencies(A)` clears both marks again,
restoring the original world. -/
theorem blocking_transitivity_chain (sA : TaskStatus) (rB rC : DepStatus)
    (h1 : depStatusSatisfied sA rB = false)
    (h2 : depStatusSatisfied TaskStatus.undispatched rC = false) :
    UpdateBlockedDependencies 9 (chainWorld sA rB rC) (chainTaskA sA) =
      .ok (blockedChainWorld sA rB rC,
        [.unattainableMarked "B" "A" true, .unattainableMarked "C" "B" true]) ∧
    ((blockedChainWorld sA rB rC).findTask "B").map Task.Blocked = some true ∧
    ((blockedChainWorld sA rB rC).findTask "C").map Task.Blocked = some true ∧
    UpdateUnblockedDependencies 9 (blockedChainWorld sA rB rC) (chainTaskA sA) =
      .ok (chainWorld sA rB rC,
        [.unattainableMarked "B" "A" false, .unattainableMarked "C" "B" false]) := by
  revert sA rB rC
  decide

/-- Claim C3 witness: the chain with both requirements `succeeded`,
head finishing `failed`. -/
theorem blocking_transitivity_chain_witness :
    depStatusSatisfied .failed (.status .succeeded) = false ∧
    depStatusSatisfied .undispatched (.status .succeeded) = false ∧
    UpdateBlockedDependencies 9
        (chainWorld .failed (.status .succeeded) (.status .succeeded)) (chainTaskA .failed) =
      .ok (blockedChainWorld .failed (.status .succeeded) (.status .succeeded),
        [.unattainableMarked "B" "A" true, .unattainableMarked "C" "B" true]) := by
  refine ⟨by decide, by decide,
    (blocking_transitivity_chain .failed (.status .succeeded) (.status .succeeded)
      (by decide) (by decide)).1⟩

/-- Claim C1 counterexample: a succeeded task being finished again with
the same succeeded details while the results store reports failed tests
— the failed-test override rewrites the details to `failed` before the
double-finish guard, so `MarkEnd` is not a no-op: the task's and its
build's statuses change to `failed`. -/
theorem markEnd_failed_tests_overrides_guard :
    succeededTask.Status = .succeeded ∧
    ((MarkEnd 9 succeededWorld { hasFailedTests := true } succeededTask "me" 3
        { Status := .succeeded } false).map
      (fun p => (p.1.findTask "F").map (fun t => t.Status))) = .ok (some .failed) ∧
    ((MarkEnd 9 succeededWorld { hasFailedTests := true } succeededTask "me" 3
        { Status := .succeeded } false).map
      (fun p => (p.1.findBuild "b1").map (fun b => b.Status))) = .ok (some .failed) := by
  decide

/-- Claim C1 (corrected): whenever the end details' status *after the
failed-test override* (that is, `failed` when the task has failed tests
and the details are not already failed, else the details' status)
equals the task's current status, `MarkEnd` is a benign no-op: it
returns without error, leaves the whole world — task, build and version
statuses included — unchanged, and performs no observable action at all
(no blocking propagation, no stepback, task-group or commit-queue
reaction). -/
theorem markEnd_double_finish_guard (fuel : Nat) (w : World) (env : ResultsEnv)
    (t : Task) (caller : String) (finishTime : Nat) (detail : TaskEndDetail)
    (deactivatePrevious : Bool)
    (hguard : (if env.hasFailedTests && !(detail.Status == TaskStatus.failed)
      then TaskStatus.failed else detail.Status) = t.Status) :
    MarkEnd (fuel + 1) w env t caller finishTime detail deactivatePrevious = .ok (w, []) := by
  have hrec : (if env.hasFailedTests && !(detail.Status == TaskStatus.failed)
      then ({ detail with DetType := CommandTypeTest, Status := TaskStatus.failed } :
        TaskEndDetail)
      else detail).Status = t.Status := by
    cases hc : env.hasFailedTests && !(detail.Status == TaskStatus.failed) <;>
      simp [hc] at hguard ⊢ <;> exact hguard
  simp only [MarkEnd, lifecycleStep]
  rw [hrec]
  simp

/-- Claim C1 witness: double-finishing a succeeded task with succeeded
details and no failed tests changes nothing. -/
theorem markEnd_double_finish_guard_witness :
    MarkEnd 1 {} {} { Id := "G", Status := .succeeded } "me" 3
      { Status := .succeeded } false = .ok ({}, []) :=
  markEnd_double_finish_guard 0 {} {} { Id := "G", Status := .succeeded } "me" 3
    { Status := .succeeded } false (by decide)

/-- Claim C7 counterexample: a build whose freshly derived status equals
its stored status (`created`) but whose all-tasks-blocked flag flips —
`updateBuildStatus` reports a change, so
`UpdateBuildAndVersionStatusForTask` does read the version document
(the `versionRead` event), against the claim's "never reads or writes
the version". -/
theorem updateBuildAndVersion_blocked_flag_counterexample :
    ((blockedFlagWorld.findBuild "b7").map (fun b => b.Status)) = some .created ∧
    (getBuildStatus (tasksByBuildId blockedFlagWorld "b7")).1 = .created ∧
    ((UpdateBuildAndVersionStatusForTask blockedFlagWorld blockedOnlyTask).map
      (fun p => p.2)) = .ok [.buildBlockedSet "b7" true, .versionRead "v7"] := by decide

/-- Claim C7 (corrected): when the freshly derived status of the task's
build equals the stored status *and the all-tasks-blocked flag is
unchanged*, `UpdateBuildAndVersionStatusForTask` returns right after
re-persisting the build's all-blocked flag: its only event is that
build write, and the version and patch documents are neither read nor
written (the world's versions and patches are untouched). The
version/patch recompute runs exactly when the build update reports a
change, which the code defines as a status change or a flip of the
all-blocked flag. -/
theorem updateBuildAndVersion_short_circuit (w : World) (t : Task) (b : Build)
    (hb : w.findBuild t.BuildId = some b)
    (hs : (getBuildStatus (tasksByBuildId w b.Id)).1 = b.Status)
    (hblk : (getBuildStatus (tasksByBuildId w b.Id)).2 = b.AllTasksBlocked) :
    UpdateBuildAndVersionStatusForTask w t =
      .ok ((buildSetAllTasksBlocked w b.Id b.AllTasksBlocked).1,
        [Ev.buildBlockedSet b.Id b.AllTasksBlocked]) ∧
    ((buildSetAllTasksBlocked w b.Id b.AllTasksBlocked).1).versions = w.versions ∧
    ((buildSetAllTasksBlocked w b.Id b.AllTasksBlocked).1).patches = w.patches := by
  have hgb : getBuildStatus (tasksByBuildId w b.Id) = (b.Status, b.AllTasksBlocked) := by
    rw [← hs, ← hblk]
  have hub : updateBuildStatus w b = (false, buildSetAllTasksBlocked w b.Id b.AllTasksBlocked) := by
    simp [updateBuildStatus, hgb]
  refine ⟨?_, rfl, rfl⟩
  unfold UpdateBuildAndVersionStatusForTask
  split
  · rename_i hnone
    rw [hb] at hnone
    exact absurd hnone (by simp)
  · rename_i taskBuild htb
    rw [hb] at htb
    injection htb with htb
    subst htb
    rw [hub]
    simp [buildSetAllTasksBlocked]

/-- Claim C7 witness: a finished build whose derived status and blocked
flag both match takes the short-circuit path. -/
theorem updateBuildAndVersion_short_circuit_witness :
    UpdateBuildAndVersionStatusForTask succeededWorld succeededTask =
      .ok ((buildSetAllTasksBlocked succeededWorld "b1" false).1,
        [Ev.buildBlockedSet "b1" false]) := by
  have h := updateBuildAndVersion_short_circuit succeededWorld succeededTask
    { Id := "b1", Status := .succeeded, Activated := true, Version := "v1" }
    (by decide) (by decide) (by decide)
  exact h.1

/-- Claim C9 counterexample: a display-only task with no prior succeeded
run of its own whose execution task does have one — `doStepback` on the
display task recurses into the execution task and activates its
previous run, so it is not a no-op. -/
theorem doStepback_display_counterexample :
    previousCompletedTask displayStepWorld displayStepTask "proj" [.succeeded] = none ∧
    ((doStepback 9 displayStepWorld displayStepTask).map
      (fun p => (p.1.findTask "E1").map (fun t => t.Activated))) = .ok (some true) ∧
    ((displayStepWorld.findTask "E1").map (fun t => t.Activated)) = some false := by decide

/-- Claim C9 (corrected): for every non-display-only task with no prior
succeeded run of the same task in the same project, `doStepback` is a
no-op — nothing is activated and the world is unchanged (bounding the
backward regression search); a display-only task, however, first steps
back each of its execution tasks, which may activate tasks based on the
execution tasks' own prior successes. -/
theorem doStepback_requires_prior_success (fuel : Nat) (w : World) (t : Task)
    (hdo : t.DisplayOnly = false)
    (hprev : previousCompletedTask w t t.Project [.succeeded] = none) :
    doStepback (fuel + 1) w t = .ok (w, []) := by
  unfold doStepback doStepbackList
  simp [hdo, hprev, exc_bind_ok, doStepbackList]

/-- Claim C9 witness: the earliest run of a task has no prior succeeded
run, so stepping it back changes nothing. -/
theorem doStepback_requires_prior_success_witness :
    doStepback 5 generatedWorld generatedPrev = .ok (generatedWorld, []) :=
  doStepback_requires_prior_success 4 generatedWorld generatedPrev (by decide) (by decide)

/-- Claim C4 counterexample: a finished, non-negative-priority,
unactivated previous run of a failing mainline task — the claim's skip
list says the no-op happens when the previous task is *unfinished* (or
missing, negative-priority, or activated), so it demands activation
here; `activatePreviousTask` instead leaves the world unchanged,
because the code skips a previous task that is already finished. -/
theorem activatePreviousTask_finished_counterexample :
    finishedStepWorld.findTask "FT" = some finishedStepTask ∧
    byBeforeRevision finishedStepWorld finishedStepTask.RevisionOrderNumber
      finishedStepTask.BuildVariant finishedStepTask.DisplayName finishedStepTask.Project
      finishedStepTask.Requester = some finishedPrev ∧
    finishedPrev.IsFinished = true ∧ ¬(finishedPrev.Priority < 0) ∧
    finishedPrev.Activated = false ∧
    activatePreviousTask 9 finishedStepWorld "FT" "c" none = .ok (finishedStepWorld, []) := by
  decide

/-- Claim C4 (corrected): for a non-generated task,
`activatePreviousTask` locates the task with the same build variant,
display name, project and requester that has the highest revision order
number strictly below the failing task's; it is a no-op when that
previous task is already *finished*, has negative priority, or is
already activated, and otherwise — for a plain previous run (not
display-only, outside display tasks, never dispatched, no transitive
dependencies) whose build and non-patch version are present — it
activates that previous task. -/
theorem activatePreviousTask_spec (fuel : Nat) (w : World) (taskId caller : String)
    (ost : Option Task) (t prev : Task) (b : Build) (v : Version)
    (ht : w.findTask taskId = some t)
    (hgen : t.GeneratedBy = "")
    (hprev : byBeforeRevision w t.RevisionOrderNumber t.BuildVariant t.DisplayName
      t.Project t.Requester = some prev) :
    ((prev.IsFinished || decide (prev.Priority < 0) || prev.Activated) = true →
      activatePreviousTask (fuel + 1) w taskId caller ost = .ok (w, [])) ∧
    (prev.IsFinished = false → ¬(prev.Priority < 0) → prev.Activated = false →
      prev.DisplayOnly = false → prev.DisplayTaskId = "" → prev.DispatchTime = 0 →
      getRecursiveDependenciesUp w [prev] = [] →
      w.findBuild prev.BuildId = some b → w.findVersion prev.Version = some v →
      IsPatchRequester v.Requester = false →
      ∃ w' evs, activatePreviousTask (fuel + 1) w taskId caller ost = .ok (w', evs) ∧
        (w'.findTask prev.Id).map (fun x => x.Activated) = some true) := by
  have hred : activatePreviousTask (fuel + 1) w taskId caller ost =
      (if prev.IsFinished || decide (prev.Priority < 0) || prev.Activated then
        Except.ok (w, [])
      else do
        let (w1, evs1) ← SetActiveState fuel w caller true [prev]
        if prev.GenerateTask && ost.isSome then
          let (w2, evs2) := setGeneratedTasksToActivate w1 prev.Id
          Except.ok (w2, evs1 ++ evs2)
        else Except.ok (w1, evs1)) := by
    simp only [activatePreviousTask, ht, hgen, hprev]
    simp
  constructor
  · intro hskip
    rw [hred, if_pos hskip]
  · intro h1 h2 h3 h4 h5 h6 h7 hb hv hreq
    rw [hred, if_neg (by simp [h1, h2, h3])]
    obtain ⟨w', evs', hset, hact⟩ :=
      SetActiveState_activates_singleton fuel w caller prev b v h4 h5 h6 h7 hb hv hreq
        (byBeforeRevision_mem hprev)
    by_cases hg : (prev.GenerateTask && ost.isSome) = true
    · exact ⟨w', evs' ++ [Ev.generatedTasksToActivateSet prev.Id],
        by simp only [hset, Bind.bind, Except.bind, hg, if_true, setGeneratedTasksToActivate],
        hact⟩
    · exact ⟨w', evs',
        by simp only [hset, Bind.bind, Except.bind]
           simp [hg],
        hact⟩

/-- Claim C4 witness: the unfinished, unactivated previous run at
revision order 3 of a failure at revision order 4 gets activated. -/
theorem activatePreviousTask_spec_witness :
    ∃ w' evs, activatePreviousTask 9 eligWorld "T" "c" none = .ok (w', evs) ∧
      (w'.findTask "P").map (fun x => x.Activated) = some true :=
  (activatePreviousTask_spec 8 eligWorld "T" "c" none eligT eligPrev eligB eligV
    (by decide) (by decide) (by decide)).2 (by decide) (by decide) (by decide) (by decide)
    (by decide) (by decide) (by decide) (by decide) (by decide) (by decide)

/-- Claim C8 (confirmed): for a task in a single-host task group,
`checkResetSingleHostTaskGroup` defers (a no-op returning the world
unchanged) while some group member is simultaneously unfinished,
unblocked and activated, and also when no member has requested a reset;
when every member is finished-or-blocked-or-inactive and at least one
requested `resetWhenFinished`, it runs `resetManyTasks` on the whole
group, and an error-free run of that reset bumps every member's
execution number, returns it to `undispatched` and reactivates it. -/
theorem checkResetSingleHostTaskGroup_spec (fuel : Nat) (w : World) (t : Task)
    (caller : String)
    (hg : t.IsPartOfSingleHostTaskGroup = true)
    (hne : findTaskGroupFromBuild w t.BuildId t.TaskGroup ≠ []) :
    ((∃ x ∈ findTaskGroupFromBuild w t.BuildId t.TaskGroup,
        (!x.IsFinished && !x.Blocked && x.Activated) = true) →
      checkResetSingleHostTaskGroup fuel w t caller = .ok (w, [])) ∧
    ((∀ x ∈ findTaskGroupFromBuild w t.BuildId t.TaskGroup,
        (!x.IsFinished && !x.Blocked && x.Activated) = false) →
      (∀ x ∈ findTaskGroupFromBuild w t.BuildId t.TaskGroup,
        x.ResetWhenFinished = false) →
      checkResetSingleHostTaskGroup fuel w t caller = .ok (w, [])) ∧
    ((∀ x ∈ findTaskGroupFromBuild w t.BuildId t.TaskGroup,
        (!x.IsFinished && !x.Blocked && x.Activated) = false) →
      (∃ x ∈ findTaskGroupFromBuild w t.BuildId t.TaskGroup,
        x.ResetWhenFinished = true) →
      checkResetSingleHostTaskGroup fuel w t caller =
        resetManyTasks fuel w (findTaskGroupFromBuild w t.BuildId t.TaskGroup) caller ∧
      ∀ (w' : World) (evs : List Ev),
        resetManyTasks fuel w (findTaskGroupFromBuild w t.BuildId t.TaskGroup) caller =
          .ok (w', evs) →
        (∀ x ∈ findTaskGroupFromBuild w t.BuildId t.TaskGroup,
          w.findTask x.Id = some x ∧ x.DisplayOnly = false) →
        ((findTaskGroupFromBuild w t.BuildId t.TaskGroup).map (fun x => x.Id)).Nodup →
        ∀ x ∈ findTaskGroupFromBuild w t.BuildId t.TaskGroup,
          (w'.findTask x.Id).map (fun y => (y.Execution, y.Status, y.Activated)) =
            some (x.Execution + 1, TaskStatus.undispatched, true)) := by
  have hlen : ((findTaskGroupFromBuild w t.BuildId t.TaskGroup).length == 0) = false := by
    have : (findTaskGroupFromBuild w t.BuildId t.TaskGroup).length ≠ 0 := by
      intro hh
      exact hne (List.length_eq_zero.mp hh)
    simp [this]
  refine ⟨?_, ?_, ?_⟩
  · rintro ⟨x, hx, hc⟩
    unfold checkResetSingleHostTaskGroup
    simp only [hg, Bool.not_true, Bool.false_eq_true, if_false, hlen]
    rw [checkResetScan_none_of_mem _ x hx hc false]
  · intro hall hnores
    have hany : (findTaskGroupFromBuild w t.BuildId t.TaskGroup).any
        (fun x => x.ResetWhenFinished) = false := by
      simp only [List.any_eq_false]
      intro x hx
      simp [hnores x hx]
    unfold checkResetSingleHostTaskGroup
    simp only [hg, Bool.not_true, Bool.false_eq_true, if_false, hlen]
    rw [checkResetScan_some _ false hall, hany]
    rfl
  · intro hall hex
    have hany : (findTaskGroupFromBuild w t.BuildId t.TaskGroup).any
        (fun x => x.ResetWhenFinished) = true := by
      rcases hex with ⟨x, hx, hr⟩
      exact List.any_eq_true.mpr ⟨x, hx, hr⟩
    constructor
    · unfold checkResetSingleHostTaskGroup
      simp only [hg, Bool.not_true, Bool.false_eq_true, if_false, hlen]
      rw [checkResetScan_some _ false hall, hany]
      rfl
    · intro w' evs hrm hdocs hnodup x hx
      have hfull := resetManyTasks_sig fuel _ w caller w' evs hrm
        (fun y hy => by rw [(hdocs y hy).1]; rfl)
        (fun y hy => (hdocs y hy).2) hnodup x hx
      cases hy : w'.findTask x.Id with
      | none =>
        rw [hy] at hfull
        exact Option.noConfusion hfull
      | some y =>
        rw [hy] at hfull
        injection hfull with hfull
        simp only [taskSig, Prod.mk.injEq] at hfull
        simp [hfull.1, hfull.2.1, hfull.2.2.1]

/-- Claim C8 witness: a two-member group, one failed member having
requested a reset and one succeeded member — the whole group is reset,
both members getting a new execution, `undispatched` status and the
activated flag. -/
theorem checkResetSingleHostTaskGroup_spec_witness :
    ∃ w' evs, checkResetSingleHostTaskGroup 9 groupWorld groupG1 "c" = .ok (w', evs) ∧
      ∀ x ∈ findTaskGroupFromBuild groupWorld "b8" "tg",
        (w'.findTask x.Id).map (fun y => (y.Execution, y.Status, y.Activated)) =
          some (x.Execution + 1, TaskStatus.undispatched, true) := by
  obtain ⟨heq, himp⟩ :=
    (checkResetSingleHostTaskGroup_spec 9 groupWorld groupG1 "c" (by decide)
      (by decide)).2.2 (by decide) (by decide)
  have hok : (match resetManyTasks 9 groupWorld
      (findTaskGroupFromBuild groupWorld groupG1.BuildId groupG1.TaskGroup) "c" with
    | .ok _ => true
    | .error _ => false) = true := by decide
  rcases hrm : resetManyTasks 9 groupWorld
      (findTaskGroupFromBuild groupWorld groupG1.BuildId groupG1.TaskGroup) "c" with e | p
  · rw [hrm] at hok
    exact Bool.noConfusion hok
  · refine ⟨p.1, p.2, ?_, ?_⟩
    · rw [heq, hrm]
    · intro x hx
      exact himp p.1 p.2 (by rw [hrm]) (by decide) (by decide) x hx

/-- Claim C6 (confirmed): when item N is dequeued,
`removeNextMergeTaskDependency` removes the dependency edge from item
N+1's merge task onto item N's merge task and, when a processing item
N-1 with a merge task exists, adds a new edge from N+1's merge task
onto N-1's merge task, relinking the chain; when N is the last item or
the following item is unprocessed (no version), no dependency edges are
changed. -/
theorem removeNextMergeTaskDependency_relink (w : World) (cq : CommitQueue)
    (issue : String) (i : Nat)
    (hidx : cq.Queue.findIdx? (cqItemMatches issue) = some i) :
    (i + 1 = cq.Queue.length → removeNextMergeTaskDependency w cq issue = .ok (w, [])) ∧
    (∀ next, cq.Queue.get? (i + 1) = some next → next.Version = "" →
      removeNextMergeTaskDependency w cq issue = .ok (w, [])) ∧
    (∀ next cur nm cm,
      cq.Queue.get? (i + 1) = some next → next.Version ≠ "" →
      cq.Queue.get? i = some cur →
      findMergeTaskForVersion w next.Version = some nm →
      findMergeTaskForVersion w cur.Version = some cm →
      (i = 0 →
        removeNextMergeTaskDependency w cq issue =
          .ok ((w.removeDependency nm.Id cm.Id).1, [Ev.dependencyRemoved nm.Id cm.Id])) ∧
      (∀ k prev pm, i = k + 1 → cq.Queue.get? k = some prev →
        findMergeTaskForVersion w prev.Version = some pm →
        removeNextMergeTaskDependency w cq issue =
          .ok ((((w.removeDependency nm.Id cm.Id).1.addDependency nm.Id
              { TaskId := pm.Id, Status := AllStatuses }).1),
            [Ev.dependencyRemoved nm.Id cm.Id, Ev.dependencyAdded nm.Id pm.Id]))) := by
  have hfind : cq.FindItem issue = (i : Int) := by
    have hgo := findItemGo_eq_findIdx cq.Queue issue 0
    rw [hidx] at hgo
    exact hgo
  have hlt : i < cq.Queue.length := (List.findIdx?_eq_some_iff_findIdx_eq.mp hidx).1
  refine ⟨?_, ?_, ?_⟩
  · intro hlen
    unfold removeNextMergeTaskDependency
    rw [hfind]
    have h1 : ¬((i : Int) < 0) := by omega
    have h2 : ((i : Int) + 1 ≥ (cq.Queue.length : Int)) := by omega
    simp [h1, h2]
  · intro next hnext hv
    unfold removeNextMergeTaskDependency
    rw [hfind]
    have hlt2 : i + 1 < cq.Queue.length := by
      rcases Nat.lt_or_ge (i + 1) cq.Queue.length with h | h
      · exact h
      · exfalso
        have hn := List.get?_eq_none.mpr h
        rw [hnext] at hn
        exact Option.noConfusion hn
    have h1 : ¬((i : Int) < 0) := by omega
    have h2 : ¬((i : Int) + 1 ≥ (cq.Queue.length : Int)) := by omega
    have htn : (i : Int).toNat + 1 = i + 1 := by omega
    have hbv : (next.Version == "") = true := by simpa using hv
    simp only [h1, h2, htn, hnext, hbv, if_false, if_true, ite_true, ite_false]
  · intro next cur nm cm hnext hv hcur hnm hcm
    have hlt2 : i + 1 < cq.Queue.length := by
      rcases Nat.lt_or_ge (i + 1) cq.Queue.length with h | h
      · exact h
      · exfalso
        have hn := List.get?_eq_none.mpr h
        rw [hnext] at hn
        exact Option.noConfusion hn
    have h1 : ¬((i : Int) < 0) := by omega
    have h2 : ¬((i : Int) + 1 ≥ (cq.Queue.length : Int)) := by omega
    have htn : (i : Int).toNat + 1 = i + 1 := by omega
    have htn0 : (i : Int).toNat = i := by omega
    have hbv : (next.Version == "") = false := by simpa using hv
    constructor
    · intro hi0
      unfold removeNextMergeTaskDependency
      rw [hfind]
      have hngt : ¬((i : Int) > 0) := by omega
      simp only [h1, h2, htn, htn0, hnext, hbv, hnm, hcur, hcm, hngt, if_false, if_true,
        Bool.false_eq_true, ite_false, ite_true]
      simp [World.removeDependency]
    · intro k prev pm hik hprev hpm
      have hgt : ((i : Int) > 0) := by omega
      have hprev2 : cq.Queue.get? (i - 1) = some prev := by
        rw [show i - 1 = k by omega]
        exact hprev
      have hpm2 : findMergeTaskForVersion (w.updateTask nm.Id (fun t =>
          { t with DependsOn := t.DependsOn.filter (fun d => !(d.TaskId == cm.Id)) }))
          prev.Version = some (if pm.Id == nm.Id then
            { pm with DependsOn := pm.DependsOn.filter (fun d => !(d.TaskId == cm.Id)) }
          else pm) := by
        rw [findMergeTask_updateTask w nm.Id
          (fun t => { t with DependsOn := t.DependsOn.filter (fun d => !(d.TaskId == cm.Id)) })
          (fun x => rfl) (fun x => rfl) prev.Version, hpm]
        rfl
      unfold removeNextMergeTaskDependency
      rw [hfind]
      simp only [h1, h2, htn, htn0, hnext, hbv, hnm, hcur, hcm, hgt, if_false, if_true,
        Bool.false_eq_true, ite_false, ite_true, World.removeDependency]
      split
      · rename_i hnone
        rw [hprev2] at hnone
        exact Option.noConfusion hnone
      · rename_i prevItem hsome
        rw [hprev2] at hsome
        injection hsome with hsome
        subst hsome
        split
        · rename_i hnone2
          rw [hpm2] at hnone2
          exact Option.noConfusion hnone2
        · rename_i prevMerge hsome2
          rw [hpm2] at hsome2
          injection hsome2 with hsome2
          subst hsome2
          by_cases hpmid : pm.Id == nm.Id <;>
            simp [hpmid, World.removeDependency, World.addDependency]


/-- Claim C6 witness: dequeuing the middle of three processing items
relinks the third merge task from the second onto the first. -/
theorem removeNextMergeTaskDependency_relink_witness :
    removeNextMergeTaskDependency mergeChainWorld mergeChainQueue "Y" =
      .ok ((((mergeChainWorld.removeDependency "mZ" "mY").1.addDependency "mZ"
          { TaskId := "mX", Status := AllStatuses }).1),
        [Ev.dependencyRemoved "mZ" "mY", Ev.dependencyAdded "mZ" "mX"]) ∧
    ((((mergeChainWorld.removeDependency "mZ" "mY").1.addDependency "mZ"
        { TaskId := "mX", Status := AllStatuses }).1.findTask "mZ").map
      (fun t => t.DependsOn)) = some [{ TaskId := "mX", Status := AllStatuses }] := by
  have h := ((removeNextMergeTaskDependency_relink mergeChainWorld mergeChainQueue "Y" 1
      (by decide)).2.2 { Issue := "Z", Version := "v3" } { Issue := "Y", Version := "v2" }
      mergeTaskZ mergeTaskY (by decide) (by decide) (by decide) (by decide) (by decide)).2
      0 { Issue := "X", Version := "v1" } mergeTaskX rfl (by decide) (by decide)
  exact ⟨h, by decide⟩

end Evergreen
